import Mathlib

/-!
A shallow embedding of the rdf-lens core (the lens combinator algebra of
`src/lens.ts` and the SHACL-driven machinery of `src/shacl.ts`).

Modelling conventions:
* RDF terms and quads are value types with structural equality, as in the
  source (rdfjs `Term.equals` is structural).  Quoted-triple terms and the
  quad graph component are not read by any modelled function and are omitted.
* A lens is a function `input → Ctx → RunState → RunState × Ctx × Except LensErr β`.
  `RunState` carries the per-run mutable data of a `LensContext`: the shared
  memo table (`stateMap`, used only by `Cached`), the heap of mutable record
  objects that `Cached` allocates and later fills in place, and the lineage
  array of the root context object.  `Ctx` says whether the currently
  executing lens holds the root context object (pushes mutate the root
  lineage array, which lives in `RunState` because clones snapshot it) or a
  cloned context (pushes mutate only the clone's private lineage copy).
  `createContext().clone()` in the source always slices the lineage of the
  original root context object, which is why `cloneCtx` reads
  `RunState.rootLineage` no matter which context is current.
* JavaScript exceptions are the `Except.error` branch; state and context
  mutations performed before a throw persist, exactly as in the source.
* Object identity of the records produced by `Cached` is modelled by heap
  addresses (`Value.vref`); `Object.assign` into such a record mutates the
  heap cell.  Lens object identity (the key of `stateMap`) is modelled by an
  explicit numeric tag.
* Recursive lenses (`RdfList`, the `TypedExtract`/shape knot) take a fuel
  argument; exhausted fuel is the distinguished error `LensErr.outOfFuel`,
  which never occurs in the runs the theorems below are about unless stated.
-/

namespace RdfLens

/-- An RDF term: NamedNode, BlankNode or Literal.  The modelled fragment of
the source never inspects a literal's datatype or language tag, so a literal
is just its lexical value. -/
inductive Term where
  | namedNode (value : String)
  | blankNode (value : String)
  | literal (value : String)
deriving DecidableEq, Repr

/-- The rdfjs `termType` discriminator of the three modelled term kinds. -/
inductive TermType where
  | namedNodeT
  | blankNodeT
  | literalT
deriving DecidableEq, Repr

/-- `term.termType` of rdfjs. -/
def Term.termType : Term → TermType
  | .namedNode _ => .namedNodeT
  | .blankNode _ => .blankNodeT
  | .literal _ => .literalT

/-- `term.value` of rdfjs. -/
def Term.value : Term → String
  | .namedNode v => v
  | .blankNode v => v
  | .literal v => v

/-- `termToString` of `src/shacl.ts` (and `src/lens.ts`): angle brackets for
IRIs, `_: `-prefix for blanks, JSON-quoted value otherwise. -/
def termToString (term : Term) : String :=
  match term with
  | .namedNode v => "<" ++ v ++ ">"
  | .blankNode v => "_:" ++ v
  | .literal v => "\x22" ++ v ++ "\x22"

/-- An RDF quad, without the graph component (never read by the modelled
code). -/
structure Quad where
  subject : Term
  predicate : Term
  object : Term
deriving DecidableEq, Repr

/-- The `Cont` container of `src/lens.ts`: a focus term plus the quad set. -/
structure Cont where
  id : Term
  quads : List Quad
deriving DecidableEq, Repr

/-- Vocabulary: `rdf:type`. -/
def rdfType : Term := .namedNode "http://www.w3.org/1999/02/22-rdf-syntax-ns#type"

/-- Vocabulary: `rdf:first`. -/
def rdfFirst : Term := .namedNode "http://www.w3.org/1999/02/22-rdf-syntax-ns#first"

/-- Vocabulary: `rdf:rest`. -/
def rdfRest : Term := .namedNode "http://www.w3.org/1999/02/22-rdf-syntax-ns#rest"

/-- Vocabulary: `rdf:nil`. -/
def rdfNil : Term := .namedNode "http://www.w3.org/1999/02/22-rdf-syntax-ns#nil"

/-- Vocabulary: `xsd:integer`. -/
def xsdInteger : Term := .namedNode "http://www.w3.org/2001/XMLSchema#integer"

/-- Vocabulary: `xsd:float`. -/
def xsdFloat : Term := .namedNode "http://www.w3.org/2001/XMLSchema#float"

/-- Vocabulary: `xsd:double`. -/
def xsdDouble : Term := .namedNode "http://www.w3.org/2001/XMLSchema#double"

/-- Vocabulary: `xsd:decimal`. -/
def xsdDecimal : Term := .namedNode "http://www.w3.org/2001/XMLSchema#decimal"

/-- Vocabulary: `xsd:string`. -/
def xsdString : Term := .namedNode "http://www.w3.org/2001/XMLSchema#string"

/-- Vocabulary: `xsd:dateTime`. -/
def xsdDateTime : Term := .namedNode "http://www.w3.org/2001/XMLSchema#dateTime"

/-- Vocabulary: `xsd:boolean`. -/
def xsdBoolean : Term := .namedNode "http://www.w3.org/2001/XMLSchema#boolean"

/-- Vocabulary: the custom `xsd:iri` used by the source. -/
def xsdIri : Term := .namedNode "http://www.w3.org/2001/XMLSchema#iri"

/-- Vocabulary: `xsd:anyURI`. -/
def xsdAnyURI : Term := .namedNode "http://www.w3.org/2001/XMLSchema#anyURI"

/-- Vocabulary: the custom `xsd:literal` default datatype of `envLens`. -/
def xsdLiteral : Term := .namedNode "http://www.w3.org/2001/XMLSchema#literal"

/-- Vocabulary: `rdfl:EnvVariable`. -/
def rdflEnvVariable : Term := .namedNode "https://w3id.org/rdf-lens/ontology#EnvVariable"

/-- Vocabulary: `rdfl:envKey`. -/
def rdflEnvKey : Term := .namedNode "https://w3id.org/rdf-lens/ontology#envKey"

/-- Vocabulary: `rdfl:envDefault`. -/
def rdflEnvDefault : Term := .namedNode "https://w3id.org/rdf-lens/ontology#envDefault"

/-- Vocabulary: `rdfl:datatype`. -/
def rdflDatatype : Term := .namedNode "https://w3id.org/rdf-lens/ontology#datatype"

/-- The dynamic values lenses produce: terms, JS primitives, arrays, plain
record objects, and heap references to the mutable records `Cached`
allocates.  `vnan` stands for the NaN a failed JS numeric coercion yields;
`vundef` is JS `undefined`. -/
inductive Value where
  | vterm (t : Term)
  | vstr (s : String)
  | vint (n : Int)
  | vnan
  | vbool (b : Bool)
  | vdate (iso : String)
  | vundef
  | vlist (vs : List Value)
  | vrecord (fields : List (String × Value))
  | vref (addr : Nat)

/-- The only value comparison the modelled code performs on dynamic values:
the strict `x !== undefined` test of `fieldToLens`. -/
def Value.isUndef : Value → Bool
  | .vundef => true
  | _ => false

/-- One breadcrumb frame pushed by `named` lenses; the `opts` payload
(`unknown` in the source) is flattened to the list of strings the modelled
call sites pass. -/
structure Lineage where
  name : String
  opts : List String
deriving DecidableEq, Repr

/-- Errors: `LensError(message, lineage)`, a JS `TypeError` (destructuring
`undefined`), the raw error array `or` throws, and the fuel marker of the
model. -/
inductive LensErr where
  | lensError (message : String) (lineage : List Lineage)
  | typeErr (message : String)
  | collected (errors : List LensErr)
  | outOfFuel

/-- One `{lens, result}` entry of a `StateDict` of `Cached`, flattened: the
dictionary key (the focus term's `value`), the identity tag of the
underlying lens and the heap address of the reserved result record. -/
structure CachedEntry where
  key : String
  lensTag : Nat
  addr : Nat
deriving DecidableEq, Repr

/-- The per-wrapper state of `Cached`: one `StateDict` for NamedNode foci
and one for BlankNode foci. -/
structure CachedState where
  namedNodes : List CachedEntry
  blankNodes : List CachedEntry
deriving DecidableEq, Repr

/-- The mutable per-run data reachable from a `LensContext`: the root
context object's lineage array, the shared `stateMap` (keyed by lens
identity, modelled as a numeric tag; only `Cached` wrappers store state),
and the heap of mutable record objects. -/
structure RunState where
  rootLineage : List Lineage
  cachedMap : List (Nat × CachedState)
  heap : List (List (String × Value))

/-- `createContext()` of `src/lens.ts`: fresh state map, empty lineage. -/
def createContext : RunState :=
  { rootLineage := [], cachedMap := [], heap := [] }

/-- Which context object the running lens holds: the root context (lineage
pushes hit `RunState.rootLineage`) or a clone with its private lineage
copy. -/
inductive Ctx where
  | root
  | branch (lineage : List Lineage)
deriving DecidableEq, Repr

/-- The lineage array of the current context object (`ctx.lineage`). -/
def curLineage (ctx : Ctx) (st : RunState) : List Lineage :=
  match ctx with
  | .root => st.rootLineage
  | .branch l => l

/-- `ctx.clone()`: the clone closure of `createContext` always slices the
lineage of the original root context object, and shares the state map. -/
def cloneCtx (st : RunState) : Ctx :=
  .branch st.rootLineage

/-- `ctx.lineage.push(frame)` on the current context object. -/
def pushFrame (fr : Lineage) (ctx : Ctx) (st : RunState) : Ctx × RunState :=
  match ctx with
  | .root => (.root, { st with rootLineage := st.rootLineage ++ [fr] })
  | .branch l => (.branch (l ++ [fr]), st)

/-- A lens: the `_exec` function of a `BasicLens<α, β>`, with all context
mutation made explicit.  A `BasicLensM<α, β>` is a `LensFn α (List β)`. -/
def LensFn (α β : Type) : Type :=
  α → Ctx → RunState → RunState × Ctx × Except LensErr β

/-- `named(name, opts)`: push a lineage frame, then run the wrapped lens. -/
def named (l : LensFn α β) (nm : String) (opts : List String) : LensFn α β :=
  fun c ctx st =>
    let p := pushFrame { name := nm, opts := opts } ctx st
    l c p.1 p.2

/-- `named(name, opts, cb)`: as `named`, with extra frame payload computed
from the focus. -/
def namedC (l : LensFn α β) (nm : String) (opts : List String)
    (cb : α → List String) : LensFn α β :=
  fun c ctx st =>
    let p := pushFrame { name := nm, opts := opts ++ cb c } ctx st
    l c p.1 p.2

/-- `map(fn)` in its general form: the mapping function may read the current
lineage and the run state (JS closures can) and may throw. -/
def mapSt (l : LensFn α β)
    (f : β → List Lineage → RunState → Except LensErr γ) : LensFn α γ :=
  fun c ctx st =>
    match l c ctx st with
    | (st1, ctx1, .ok b) => (st1, ctx1, f b (curLineage ctx1 st1) st1)
    | (st1, ctx1, .error e) => (st1, ctx1, .error e)

/-- `map(fn)` with a pure mapping function. -/
def mapP (l : LensFn α β) (f : β → γ) : LensFn α γ :=
  mapSt l (fun b _ _ => .ok (f b))

/-- `then(next)`: sequential composition, same context threaded through. -/
def thenL (l : LensFn α β) (next : LensFn β γ) : LensFn α γ :=
  fun c ctx st =>
    match l c ctx st with
    | (st1, ctx1, .ok b) => next b ctx1 st1
    | (st1, ctx1, .error e) => (st1, ctx1, .error e)

/-- Binary instance of `and`: run both on the same focus and context, left
to right, any failure failing the whole. -/
def and2 (l : LensFn α β) (r : LensFn α γ) : LensFn α (β × γ) :=
  fun c ctx st =>
    match l c ctx st with
    | (st1, ctx1, .error e) => (st1, ctx1, .error e)
    | (st1, ctx1, .ok b) =>
      match r c ctx1 st1 with
      | (st2, ctx2, .error e) => (st2, ctx2, .error e)
      | (st2, ctx2, .ok g) => (st2, ctx2, .ok (b, g))

/-- The tail of a variadic `and`: run each lens in order on the same focus. -/
def andRest : List (LensFn α β) → LensFn α (List β)
  | [], _, ctx, st => (st, ctx, .ok [])
  | l :: rest, c, ctx, st =>
    match l c ctx st with
    | (st1, ctx1, .error e) => (st1, ctx1, .error e)
    | (st1, ctx1, .ok b) =>
      match andRest rest c ctx1 st1 with
      | (st2, ctx2, .ok bs) => (st2, ctx2, .ok (b :: bs))
      | (st2, ctx2, .error e) => (st2, ctx2, .error e)

/-- Homogeneous variadic `and(l1..ln)`: the tuple `[a, ...rest]` of the
source becomes a list. -/
def andL (l : LensFn α β) (others : List (LensFn α β)) : LensFn α (List β) :=
  mapP (and2 l (andRest others)) (fun p => p.1 :: p.2)

/-- `one(undefined)` / `one()`: first element of the multi result, or JS
`undefined`, here `Option.none`. -/
def oneD (l : LensFn α (List β)) : LensFn α (Option β) :=
  mapP l List.head?

/-- `expectOne()`: first element, or a `LensError` carrying the lineage. -/
def expectOne (l : LensFn α (List β)) : LensFn α β :=
  mapSt l (fun qs lin _ =>
    match qs with
    | [] => .error (.lensError "Expected one, found none" lin)
    | q :: _ => .ok q)

/-- Element loop of `thenAll`: each element on a fresh clone, failures
propagate. -/
def thenAllGo (next : LensFn β γ) :
    List β → Ctx → RunState → RunState × Ctx × Except LensErr (List γ)
  | [], ctx, st => (st, ctx, .ok [])
  | x :: xs, ctx, st =>
    match next x (cloneCtx st) st with
    | (st1, _, .error e) => (st1, ctx, .error e)
    | (st1, _, .ok g) =>
      match thenAllGo next xs ctx st1 with
      | (st2, ctx2, .ok gs) => (st2, ctx2, .ok (g :: gs))
      | (st2, ctx2, .error e) => (st2, ctx2, .error e)

/-- `thenAll(next)`: strict element-wise composition, source and elements
each run on cloned contexts. -/
def thenAll (l : LensFn α (List β)) (next : LensFn β γ) : LensFn α (List γ) :=
  fun c ctx st =>
    match l c (cloneCtx st) st with
    | (st1, _, .error e) => (st1, ctx, .error e)
    | (st1, _, .ok qs) => thenAllGo next qs ctx st1

/-- Element loop of `thenSome`: per-element failures are dropped. -/
def thenSomeGo (next : LensFn β γ) :
    List β → Ctx → RunState → RunState × Ctx × Except LensErr (List γ)
  | [], ctx, st => (st, ctx, .ok [])
  | x :: xs, ctx, st =>
    match next x (cloneCtx st) st with
    | (st1, _, .error _) => thenSomeGo next xs ctx st1
    | (st1, _, .ok g) =>
      match thenSomeGo next xs ctx st1 with
      | (st2, ctx2, .ok gs) => (st2, ctx2, .ok (g :: gs))
      | (st2, ctx2, .error e) => (st2, ctx2, .error e)

/-- `thenSome(next)`: tolerant element-wise composition. -/
def thenSome (l : LensFn α (List β)) (next : LensFn β γ) : LensFn α (List γ) :=
  fun c ctx st =>
    match l c (cloneCtx st) st with
    | (st1, _, .error e) => (st1, ctx, .error e)
    | (st1, _, .ok qs) => thenSomeGo next qs ctx st1

/-- Element loop of `thenFlat`: strict flatMap over the elements. -/
def thenFlatGo (next : LensFn β (List γ)) :
    List β → Ctx → RunState → RunState × Ctx × Except LensErr (List γ)
  | [], ctx, st => (st, ctx, .ok [])
  | x :: xs, ctx, st =>
    match next x (cloneCtx st) st with
    | (st1, _, .error e) => (st1, ctx, .error e)
    | (st1, _, .ok gs) =>
      match thenFlatGo next xs ctx st1 with
      | (st2, ctx2, .ok gs2) => (st2, ctx2, .ok (gs ++ gs2))
      | (st2, ctx2, .error e) => (st2, ctx2, .error e)

/-- `thenFlat(next)`: flatMap composition of multi lenses. -/
def thenFlat (l : LensFn α (List β)) (next : LensFn β (List γ)) :
    LensFn α (List γ) :=
  fun c ctx st =>
    match l c (cloneCtx st) st with
    | (st1, _, .error e) => (st1, ctx, .error e)
    | (st1, _, .ok qs) => thenFlatGo next qs ctx st1

/-- Alternative loop of `or`: each alternative on a fresh clone of the root
lineage, errors collected; the mutated original context is restored on
exit. -/
def orRest (others : List (LensFn α β)) (c : α) (ctxOrig : Ctx)
    (errs : List LensErr) : RunState → RunState × Ctx × Except LensErr β :=
  fun st =>
    match others with
    | [] => (st, ctxOrig, .error (.collected errs))
    | o :: rest =>
      match o c (cloneCtx st) st with
      | (st2, _, .ok v) => (st2, ctxOrig, .ok v)
      | (st2, _, .error e2) => orRest rest c ctxOrig (errs ++ [e2]) st2

/-- `or(l1..ln)`: the receiver runs on the caller's own context; only the
alternatives run on clones.  All collected errors are thrown when every
branch fails. -/
def orElse (l : LensFn α β) (others : List (LensFn α β)) : LensFn α β :=
  fun c ctx st =>
    match l c ctx st with
    | (st1, ctx1, .ok v) => (st1, ctx1, .ok v)
    | (st1, ctx1, .error e) => orRest others c ctx1 [e] st1

/-- Branch loop of `orAll`: every branch (including the first) on a clone,
failures dropped, successes concatenated. -/
def orAllGo (ls : List (LensFn α (List β))) (c : α) (ctxOrig : Ctx) :
    RunState → RunState × Ctx × Except LensErr (List β) :=
  fun st =>
    match ls with
    | [] => (st, ctxOrig, .ok [])
    | l :: rest =>
      match l c (cloneCtx st) st with
      | (st1, _, .ok vs) =>
        match orAllGo rest c ctxOrig st1 with
        | (st2, ctx2, .ok vs2) => (st2, ctx2, .ok (vs ++ vs2))
        | (st2, ctx2, .error e) => (st2, ctx2, .error e)
      | (st1, _, .error _) => orAllGo rest c ctxOrig st1

/-- `orAll(l1..ln)`: concatenate the successes of all branches. -/
def orAll (l : LensFn α (List β)) (others : List (LensFn α (List β))) :
    LensFn α (List β) :=
  fun c ctx st => orAllGo (l :: others) c ctx st

/-- `filter(p)`. -/
def filterL (l : LensFn α (List β)) (p : β → Bool) : LensFn α (List β) :=
  mapP l (List.filter p)

/-- `empty()`: the identity lens. -/
def emptyL : LensFn α α :=
  fun c ctx st => (st, ctx, .ok c)

/-- A lens that always throws a `LensError` with the given message. -/
def failL (msg : String) : LensFn α β :=
  fun _ ctx st => (st, ctx, .error (.lensError msg (curLineage ctx st)))

/-- `execute(container)` with the defaulted argument: every top-level
execution allocates its own fresh run context via `createContext()`. -/
def executeTop (l : LensFn α β) (c : α) : RunState × Ctx × Except LensErr β :=
  l c .root createContext

/-- The unnamed body of `pred(p)`: all objects of quads whose subject is the
focus and whose predicate matches `p` when given, in quad order. -/
def predRaw (p : Option Term) : LensFn Cont (List Cont) :=
  fun c ctx st =>
    (st, ctx, .ok
      (((c.quads.filter
          (fun q => q.subject == c.id &&
            ((p.map (fun t => q.predicate == t)).getD true)))).map
        (fun q => { id := q.object, quads := c.quads })))

/-- `pred(p)`: outgoing edges, tagged with a `pred` lineage frame. -/
def pred (p : Option Term) : LensFn Cont (List Cont) :=
  named (predRaw p) "pred"
    (match p with
     | some t => [termToString t]
     | none => [])

/-- The unnamed body of `invPred(p)`: subjects of matching incoming edges. -/
def invPredRaw (p : Option Term) : LensFn Cont (List Cont) :=
  fun c ctx st =>
    (st, ctx, .ok
      (((c.quads.filter
          (fun q => q.object == c.id &&
            ((p.map (fun t => q.predicate == t)).getD true)))).map
        (fun q => { id := q.subject, quads := c.quads })))

/-- `invPred(p)`: incoming edges, tagged with an `invPred` lineage frame. -/
def invPred (p : Option Term) : LensFn Cont (List Cont) :=
  named (invPredRaw p) "invPred"
    (match p with
     | some t => [termToString t]
     | none => [])

/-- Insert-or-overwrite on an association list, keeping the position of the
first insertion of a key and overwriting its value: JS object assignment
`obj[k] = v`. -/
def upsert [DecidableEq κ] (m : List (κ × α)) (k : κ) (v : α) : List (κ × α) :=
  match m with
  | [] => [(k, v)]
  | (k0, v0) :: rest =>
    if k0 = k then (k0, v) :: rest else (k0, v0) :: upsert rest k v

/-- The three key-to-container dictionaries `unique()` builds. -/
structure UniqueDicts where
  literals : List (String × Cont)
  namedNodes : List (String × Cont)
  blankNodes : List (String × Cont)
deriving DecidableEq, Repr

/-- One iteration of the `unique()` loop: route the container into the
dictionary of its term kind, keyed by `id.value`. -/
def uniqueStep (d : UniqueDicts) (q : Cont) : UniqueDicts :=
  match q.id.termType with
  | .literalT => { d with literals := upsert d.literals q.id.value q }
  | .namedNodeT => { d with namedNodes := upsert d.namedNodes q.id.value q }
  | .blankNodeT => { d with blankNodes := upsert d.blankNodes q.id.value q }

/-- All-digits test over a character list. -/
def decDigits : List Char → Bool
  | [] => true
  | c :: cs => c.isDigit && decDigits cs

/-- Decimal value of a digit string. -/
def parseDigits (acc : Nat) : List Char → Nat
  | [] => acc
  | c :: cs => parseDigits (acc * 10 + (c.toNat - 48)) cs

/-- ECMAScript array-index test for a property key: the key is the
canonical decimal numeral of some `n` with `0 ≤ n < 2^32 - 1` (all digits,
no leading zero unless the key is exactly `0`). -/
def isArrayIndex (s : String) : Bool :=
  match s.data with
  | [] => false
  | c :: cs =>
    c.isDigit && decDigits cs && (c != '0' || cs.isEmpty) &&
      parseDigits 0 (c :: cs) < 4294967295

/-- Numeric value of an array-index key, for the ascending enumeration. -/
def keyIdx (s : String) : Nat := parseDigits 0 s.data

/-- Insert one dictionary entry into a list that is sorted ascending by
`keyIdx` of the key. -/
def insertIdx (kv : String × Cont) :
    List (String × Cont) → List (String × Cont)
  | [] => [kv]
  | x :: xs =>
    if keyIdx kv.1 ≤ keyIdx x.1 then kv :: x :: xs
    else x :: insertIdx kv xs

/-- Sort dictionary entries ascending by the numeric value of their key. -/
def sortByIdx : List (String × Cont) → List (String × Cont)
  | [] => []
  | x :: xs => insertIdx x (sortByIdx xs)

/-- `Object.values` over a dictionary whose entries are kept in key
insertion order (with in-place overwrite on duplicate keys, as `upsert`
does): ECMAScript `OrdinaryOwnPropertyKeys` enumerates the array-index
keys first, in ascending numeric order, then the remaining string keys in
insertion order. -/
def objectValues (m : List (String × Cont)) : List Cont :=
  (sortByIdx (m.filter (fun kv => isArrayIndex kv.1))).map Prod.snd ++
    (m.filter (fun kv => !isArrayIndex kv.1)).map Prod.snd

/-- The pure body of `unique()`: fill the three dictionaries in input order,
then emit their `Object.values` in the order literals, named nodes, blank
nodes. -/
def uniqueFn (qs : List Cont) : List Cont :=
  let d := qs.foldl uniqueStep
    { literals := [], namedNodes := [], blankNodes := [] }
  objectValues d.literals ++ objectValues d.namedNodes ++
    objectValues d.blankNodes

/-- `unique()`: deduplicating lens over a list of containers. -/
def uniqueL : LensFn (List Cont) (List Cont) :=
  named (fun qs ctx st => (st, ctx, .ok (uniqueFn qs))) "unique" []

/-- `RDFListElement`: `pred(rdf:first).expectOne().and(pred(rdf:rest).expectOne())`. -/
def RDFListElement : LensFn Cont (Cont × Cont) :=
  and2 (expectOne (pred (some rdfFirst))) (expectOne (pred (some rdfRest)))

/-- `RdfList`: decode an `rdf:first`/`rdf:rest` chain into the list of
member terms; `rdf:nil` decodes to the empty list.  The self-reference of
the source is a fuel argument here. -/
def RdfList : Nat → LensFn Cont (List Term)
  | 0 => fun _ ctx st => (st, ctx, .error .outOfFuel)
  | fuel + 1 => fun c ctx st =>
    if c.id = rdfNil then (st, ctx, .ok [])
    else
      match RDFListElement c ctx st with
      | (st1, ctx1, .error e) => (st1, ctx1, .error e)
      | (st1, ctx1, .ok fr) =>
        match RdfList fuel fr.2 ctx1 st1 with
        | (st2, ctx2, .ok els) => (st2, ctx2, .ok (fr.1.id :: els))
        | (st2, ctx2, .error e) => (st2, ctx2, .error e)

/-- `ShapeField` of `src/shacl.ts`.  The `extract` lens already is whatever
`extractProperty` built for the field (`sh:datatype` coercion or the
deferred `sh:class` cache lookup). -/
structure ShapeField where
  name : String
  path : LensFn Cont (List Cont)
  minCount : Option Nat
  maxCount : Option Nat
  extract : LensFn Cont Value

/-- `Shape` of `src/shacl.ts`. -/
structure Shape where
  id : String
  ty : Term
  description : Option String
  fields : List ShapeField

/-- `Number.MAX_SAFE_INTEGER`, the default for an absent `maxCount`. -/
def maxSafeInteger : Nat := 9007199254740991

/-- JS `x || dflt` on an optional number: `0` is falsy, so an explicit
count of `0` also falls back to the default. -/
def jsOrNat (x : Option Nat) (dflt : Nat) : Nat :=
  match x with
  | some n => if n = 0 then dflt else n
  | none => dflt

/-- `thenListExtract` of `fieldToLens`: decode the focus as an RDF list and
turn each member term back into a container over the same quads. -/
def thenListExtract (fuel : Nat) : LensFn Cont (List Cont) :=
  mapP (and2 (RdfList fuel) emptyL)
    (fun p => p.1.map (fun i => { id := i, quads := p.2.quads }))

/-- `noListExtract` of `fieldToLens`: treat the focus as a one-element
list. -/
def noListExtract : LensFn Cont (List Cont) :=
  mapP emptyL (fun x => [x])

/-- The list-or-singleton decoder `thenListExtract.or(noListExtract)` that
`fieldToLens` flat-maps every path result through. -/
def listOrSingleton (fuel : Nat) : LensFn Cont (List Cont) :=
  orElse (thenListExtract fuel) [noListExtract]

/-- `fieldToLens` of `src/shacl.ts`: compile one shape field.  With an
effective `maxCount < 2` the path is sampled with `one(undefined)` and a
missing value errors only when `minCount > 0`; otherwise every path result
is list-decoded, extracted strictly, filtered for `undefined` and checked
against the count bounds. -/
def fieldToLens (fuel : Nat) (field : ShapeField) : LensFn Cont Value :=
  let minCount := jsOrNat field.minCount 0
  let maxCount := jsOrNat field.maxCount maxSafeInteger
  if maxCount < 2 then
    thenL (oneD field.path)
      (fun x ctx st =>
        match x with
        | some c0 => field.extract c0 ctx st
        | none =>
          if minCount > 0 then
            (st, ctx, .error
              (.lensError "Field is not defined and required"
                (curLineage ctx st)))
          else (st, ctx, .ok .vundef))
  else
    mapSt
      (mapSt
        (mapSt
          (thenAll (thenFlat field.path (listOrSingleton fuel)) field.extract)
          (fun xs _ _ => .ok (xs.filter (fun v => !v.isUndef))))
        (fun xs lin _ =>
          if xs.length < minCount then
            .error (.lensError "Mininum Count violation"
              ({ name := "found:", opts := [toString xs.length] } :: lin))
          else if xs.length > maxCount then
            .error (.lensError "Maximum Count violation"
              ({ name := "found: " ++ toString xs.length, opts := [] } :: lin))
          else .ok xs))
      (fun xs _ _ =>
        let out := xs.filter (fun v => !v.isUndef)
        .ok (if maxCount < 2 then (out.head?).getD .vundef else .vlist out))

/-- `Object.assign(base, fs)` on plain records: upsert every field of `fs`
into `base` in order. -/
def objAssign (base fs : List (String × Value)) : List (String × Value) :=
  fs.foldl (fun acc kv => upsert acc kv.1 kv.2) base

/-- The enumerable own fields a value contributes to `Object.assign`: a
plain record contributes its fields, a heap reference the current fields of
the referenced record, primitives nothing. -/
def fieldsOfValue (st : RunState) (v : Value) : List (String × Value) :=
  match v with
  | .vrecord fs => fs
  | .vref a => ((st.heap.get? a).getD [])
  | _ => []

/-- `Object.assign(\x7b\x7d, ...xs)`: merge a list of values into a fresh
record, later fields overwriting earlier ones. -/
def objAssignValues (st : RunState) (vs : List Value) : Value :=
  .vrecord (vs.foldl (fun acc v => objAssign acc (fieldsOfValue st v)) [])

/-- The per-field wrapper of `toLens`: a `processing field` lineage frame,
the compiled field, and the `{fieldName: value}` record. -/
def asFieldLens (fuel : Nat) (field : ShapeField) : LensFn Cont Value :=
  mapP
    (thenL
      (named emptyL "processing field"
        ([field.name] ++
          ((field.minCount.map toString).toList) ++
          ((field.maxCount.map toString).toList)))
      (fieldToLens fuel field))
    (fun x => .vrecord [(field.name, x)])

/-- `toLens` of `src/shacl.ts`: `and` together all field lenses and merge
the one-field records; a field-less shape yields the empty record.  The
`shape` and `id` lineage frames wrap the whole lens. -/
def toLens (fuel : Nat) (shape : Shape) : LensFn Cont Value :=
  match shape.fields with
  | [] =>
    namedC
      (named
        (named (mapP emptyL (fun _ => .vrecord [])) "first" [shape.ty.value])
        "shape" ([shape.id, termToString shape.ty] ++
          shape.description.toList))
      "id" [] (fun c => [termToString c.id])
  | f :: rest =>
    namedC
      (named
        (mapSt (andL (asFieldLens fuel f) (rest.map (asFieldLens fuel)))
          (fun xs _ st => .ok (objAssignValues st xs)))
        "shape" ([shape.id, termToString shape.ty] ++
          shape.description.toList))
      "id" [] (fun c => [termToString c.id])

/-- The `stateMap` entry of a `Cached` wrapper, or a fresh empty state:
`getCacheState`. -/
def lookupCachedState (st : RunState) (tag : Nat) : CachedState :=
  (((st.cachedMap.find? (fun kv => kv.1 = tag)).map Prod.snd)).getD
    { namedNodes := [], blankNodes := [] }

/-- Store a `Cached` wrapper state under its tag. -/
def setCachedState (st : RunState) (tag : Nat) (cs : CachedState) : RunState :=
  { st with cachedMap := upsert st.cachedMap tag cs }

/-- `stateDict[id.value].find(x => x.lens == lens)` on the flattened
dictionary. -/
def findEntry (es : List CachedEntry) (k : String) (tag : Nat) : Option Nat :=
  ((es.find? (fun e => e.key = k && e.lensTag = tag)).map (fun e => e.addr))

/-- The `StateDict` a focus term is routed to: named nodes and blank nodes
have persistent dictionaries; any other term kind gets a throwaway fresh
dictionary. -/
def bucketEntries (cs : CachedState) : TermType → Option (List CachedEntry)
  | .namedNodeT => some cs.namedNodes
  | .blankNodeT => some cs.blankNodes
  | .literalT => none

/-- Look up the reserved record of `(wrapper, focus)` in the run state. -/
def lookupCached (st : RunState) (tag : Nat) (ty : TermType) (k : String) :
    Option Nat :=
  match bucketEntries (lookupCachedState st tag) ty with
  | some es => findEntry es k tag
  | none => none

/-- Record the reservation of heap address `addr` for `(wrapper, focus)`:
pushed onto the persistent dictionary for named and blank foci, onto the
throwaway local dictionary (hence lost) otherwise.  `getCacheState` has
installed the wrapper state either way. -/
def reserveCached (st : RunState) (tag : Nat) (ty : TermType) (k : String)
    (addr : Nat) : RunState :=
  let cs := lookupCachedState st tag
  match ty with
  | .namedNodeT =>
    setCachedState st tag
      { cs with namedNodes :=
          cs.namedNodes ++ [{ key := k, lensTag := tag, addr := addr }] }
  | .blankNodeT =>
    setCachedState st tag
      { cs with blankNodes :=
          cs.blankNodes ++ [{ key := k, lensTag := tag, addr := addr }] }
  | .literalT => setCachedState st tag cs

/-- `Object.assign(thisThing.result, executedLens)`: mutate the reserved
heap record in place with the fields of the executed result. -/
def assignHeap (st : RunState) (addr : Nat) (v : Value) : RunState :=
  { st with heap :=
      st.heap.set addr (objAssign ((st.heap.get? addr).getD [])
        (fieldsOfValue st v)) }

/-- `Cached(lens, ...)` of `src/shacl.ts`: on entry look the focus up in
the wrapper's state; a hit returns the reserved record immediately (even
mid-population, which is what closes cycles); a miss reserves a fresh empty
record, registers it, executes the wrapped lens and then fills the record
in place.  `tag` is the identity of the wrapped lens (one wrapper exists
per wrapped lens per run, so it also keys the wrapper's `stateMap` slot). -/
def CachedRun (tag : Nat) (lens : LensFn Cont Value) : LensFn Cont Value :=
  fun c ctx st =>
    match lookupCached st tag c.id.termType c.id.value with
    | some addr => (st, ctx, .ok (.vref addr))
    | none =>
      let addr := st.heap.length
      let st1 := reserveCached { st with heap := st.heap ++ [[]] } tag
        c.id.termType c.id.value addr
      match lens c ctx st1 with
      | (st2, ctx2, .ok v) => (assignHeap st2 addr v, ctx2, .ok (.vref addr))
      | (st2, ctx2, .error e) => (st2, ctx2, .error e)

/-- A shape cache: class IRI to (lens identity tag, lens). -/
def Cache : Type := List (String × Nat × LensFn Cont Value)

/-- `subClasses[k]`, plain association lookup. -/
def jsLookupStr (m : List (String × String)) (k : String) : Option String :=
  (m.find? (fun kv => kv.1 = k)).map Prod.snd

/-- The `while (current)` walk of `TypedExtract`: collect the cache lenses
of the focus type and its ancestors, child first.  The JS loop only
terminates on acyclic `subClassOf` data; the fuel argument makes that
explicit (callers pass `subClasses.length + 1`, enough for any acyclic
chain). -/
def walkLenses (cache : Cache) (subClasses : List (String × String)) :
    Nat → Option String → List (Nat × LensFn Cont Value)
  | _, none => []
  | 0, some _ => []
  | fuel + 1, some cur =>
    let here := match (cache.find? (fun e => e.1 = cur)).map Prod.snd with
      | some tl => [tl]
      | none => []
    let nxt := match jsLookupStr subClasses cur with
      | some p => if p = "" then none else some p
      | none => none
    here ++ walkLenses cache subClasses fuel nxt

/-- `TypedExtract(cache, apply, subClasses)` of `src/shacl.ts`, for an
empty `apply` dictionary (no modelled claim registers post-processors):
read the first `rdf:type` of the focus, push the two lineage frames, fail
without a type, walk the subclass chain collecting `Cached`-wrapped shape
lenses, fail when none is found, and otherwise run the single lens or the
`and`-merge of all of them. -/
def TypedExtractRun (cache : Cache) (subClasses : List (String × String)) :
    LensFn Cont Value :=
  fun c ctx st =>
    let ty? := ((c.quads.find?
      (fun q => q.subject == c.id && q.predicate == rdfType))).map
      (fun q => q.object.value)
    let p1 := pushFrame { name := "Found type", opts := ty?.toList } ctx st
    let p2 := pushFrame { name := "TypedExtract", opts := [] } p1.1 p1.2
    let ctx2 := p2.1
    let st2 := p2.2
    match ty? with
    | none =>
      (st2, ctx2, .error
        (.lensError "Expected a type, found none" (curLineage ctx2 st2)))
    | some ty =>
      if ty = "" then
        (st2, ctx2, .error
          (.lensError "Expected a type, found none" (curLineage ctx2 st2)))
      else
        match walkLenses cache subClasses (subClasses.length + 1) (some ty) with
        | [] =>
          (st2, ctx2, .error
            (.lensError "Expected a lens for type, found none"
              (curLineage ctx2 st2)))
        | [tl] => CachedRun tl.1 tl.2 c ctx2 st2
        | tl :: tls =>
          mapSt (andL (CachedRun tl.1 tl.2)
              (tls.map (fun e => CachedRun e.1 e.2)))
            (fun xs _ stx => .ok (objAssignValues stx xs)) c ctx2 st2

/-- Numeric coercion `+s` of JS, restricted to the integral lexical forms
the modelled claims use; any other form is NaN. -/
def jsPlus (s : String) : Value :=
  match s.toInt? with
  | some n => .vint n
  | none => .vnan

/-- `dataTypeToExtract` of `src/shacl.ts`: coerce a term to a native value
according to the requested XSD datatype; unknown datatypes leave the term
unchanged. -/
def dataTypeToExtract (dataType t : Term) : Value :=
  if dataType = xsdInteger then jsPlus t.value
  else if dataType = xsdFloat then jsPlus t.value
  else if dataType = xsdDouble then jsPlus t.value
  else if dataType = xsdDecimal then jsPlus t.value
  else if dataType = xsdString then .vstr t.value
  else if dataType = xsdDateTime then .vdate t.value
  else if dataType = xsdBoolean then .vbool (t.value = "true")
  else if dataType = xsdIri then .vterm (.namedNode t.value)
  else if dataType = xsdAnyURI then .vterm (.namedNode t.value)
  else .vterm t

/-- The `checkType` sub-lens of `envLens`: every `rdf:type` of the focus is
checked to be `rdfl:EnvVariable` tolerantly, and at least one must pass. -/
def envCheckType : LensFn Cont Unit :=
  expectOne (thenSome (pred (some rdfType))
    (fun c ctx st =>
      if c.id = rdflEnvVariable then (st, ctx, .ok ())
      else
        (st, ctx, .error
          (.lensError
            "Expected type https://w3id.org/rdf-lens/ontology#EnvVariable"
            (curLineage ctx st)))))

/-- The `envName` sub-lens of `envLens`: `rdfl:envKey`, destructured from
`one()`; a missing key is the JS `TypeError` of destructuring
`undefined`. -/
def envName : LensFn Cont String :=
  mapSt (oneD (pred (some rdflEnvKey)))
    (fun o _ _ =>
      match o with
      | some c => .ok c.id.value
      | none => .error (.typeErr "Cannot destructure undefined"))

/-- The `defaultValue` sub-lens of `envLens`: optional `rdfl:envDefault`
value. -/
def envDefaultL : LensFn Cont (Option String) :=
  mapP (oneD (pred (some rdflEnvDefault))) (fun o => o.map (fun c => c.id.value))

/-- The `envDatatype` sub-lens of `envLens`: optional node-attached
`rdfl:datatype` term. -/
def envDatatypeL : LensFn Cont (Option Term) :=
  mapP (oneD (pred (some rdflDatatype))) (fun o => o.map (fun c => c.id))

/-- JS `a || b` on optional strings: the empty string is falsy. -/
def jsOrStr (a b : Option String) : Option String :=
  match a with
  | some s => if s = "" then b else some s
  | none => b

/-- `envLens(dataType?)` of `src/shacl.ts`.  `process.env` is modelled as
the explicit association list `env`.  The resolved value is
`env[key] || default` (JS truthiness, so an empty string falls through),
failing with `"ENV and default are not set"` when nothing truthy results;
the coercion datatype is the argument, else the node-attached
`rdfl:datatype`, else the `literal` pseudo-datatype. -/
def envLens (env : List (String × String)) (dataType : Option Term) :
    LensFn Cont Value :=
  mapSt (and2 envCheckType (and2 envName (and2 envDefaultL envDatatypeL)))
    (fun x lin _ =>
      let k := x.2.1
      let dflt := x.2.2.1
      let dt := x.2.2.2
      let value := jsOrStr (jsLookupStr env k) dflt
      let thisDt := (dataType.orElse (fun _ => dt)).getD xsdLiteral
      match value with
      | some v =>
        if v = "" then
          .error (.lensError "ENV and default are not set"
            ({ name := "Env Key", opts := [k] } :: lin))
        else .ok (dataTypeToExtract thisDt (.literal v))
      | none =>
        .error (.lensError "ENV and default are not set"
          ({ name := "Env Key", opts := [k] } :: lin)))

/-- `extractLeaf(datatype)` of `src/shacl.ts`: try `envLens`, fall back to
the plain datatype coercion of the focus term. -/
def extractLeaf (env : List (String × String)) (datatype : Term) :
    LensFn Cont Value :=
  orElse (envLens env (some datatype))
    [mapP emptyL (fun c => dataTypeToExtract datatype c.id)]

/-- The extract lens a `sh:class CLASS` field compiles to: a deferred
lookup of `cache[CLASS]` at execution time (empty `apply` dictionary),
wrapped in the `extracting class` lineage frame. -/
def classExtract (cache : Cache) (clazz : String) : LensFn Cont Value :=
  named
    (fun c ctx st =>
      match (cache.find? (fun e => e.1 = clazz)).map Prod.snd with
      | some tl => tl.2 c ctx st
      | none =>
        (st, ctx, .error
          (.lensError "Tried extracting class, but no shape was defined"
            ({ name := "Found type: " ++ clazz, opts := cache.map Prod.fst } ::
              curLineage ctx st))))
    "extracting class" [clazz]

/-- The IRI of `rdfl:TypedExtract`. -/
def rdflTE : String := "https://w3id.org/rdf-lens/ontology#TypedExtract"

/-- The target class of the cyclic scenario. -/
def pointTerm : Term := .namedNode "Point"

/-- The field predicate of the cyclic scenario. -/
def nextPred : Term := .namedNode "next"

/-- The focus node of the cyclic scenario. -/
def pNode : Term := .namedNode "p1"

/-- Cyclic data: `<p1> a <Point>; <next> <p1>.` -/
def cyclicQuads : List Quad :=
  [{ subject := pNode, predicate := rdfType, object := pointTerm },
   { subject := pNode, predicate := nextPred, object := pNode }]

/-- The `Point` shape of the cyclic scenario: one required single-valued
field `next` whose extract is the `sh:class rdfl:TypedExtract` deferred
lookup, so `Point` references `Point` through the dispatcher. -/
def pointShape (te : LensFn Cont Value) : Shape :=
  { id := "pshape", ty := pointTerm, description := none,
    fields := [{ name := "next", path := pred (some nextPred),
                 minCount := some 1, maxCount := some 1, extract := te }] }

/-- The lens cache of the cyclic scenario, stratified by fuel: the source
builds this knot with a mutable cache object that the `Point` shape lens
and the `TypedExtract` dispatcher both capture; each fuel level looks the
other component up one level down, with stable identity tags (`1` for the
`Point` lens, `2` for the dispatcher) standing in for the stable object
identities of the source. -/
def cyclicCache : Nat → Cache
  | 0 => []
  | n + 1 =>
    [("Point", (1, toLens 1 (pointShape (classExtract (cyclicCache n) rdflTE)))),
     (rdflTE, (2, TypedExtractRun (cyclicCache n) []))]

/-- The dispatcher entry point of the cyclic scenario. -/
def teTop (n : Nat) : LensFn Cont Value :=
  TypedExtractRun (cyclicCache n) []

/-- A lens that ignores the run context and returns a fixed plain record:
the stand-in for a compiled shape lens in generic `Cached` theorems. -/
def pureRecordLens (fs : List (String × Value)) : LensFn Cont Value :=
  fun _ ctx st => (st, ctx, .ok (.vrecord fs))

/-- A lens preserves the registered `Cached` reservations: every lens the
library builds does, since only `Cached` itself writes the state map and it
only appends. -/
def PreservesCachedEntries (L : LensFn Cont Value) : Prop :=
  ∀ c ctx st st' ctx' r, L c ctx st = (st', ctx', r) →
    ∀ tag ty k a, lookupCached st tag ty k = some a →
      lookupCached st' tag ty k = some a

/-- The NamedNode focus used by the C1 witness. -/
def contW : Cont := { id := .namedNode "w", quads := [] }

/-- The run state after the C1 witness's first `Cached` invocation. -/
def stW : RunState :=
  { rootLineage := [],
    cachedMap := [(5, { namedNodes := [{ key := "w", lensTag := 5, addr := 0 }],
                        blankNodes := [] })],
    heap := [[("f", Value.vstr "x")]] }

/-- A Literal focus, on which `Cached` never memoises. -/
def contLit : Cont := { id := .literal "lit", quads := [] }

/-- A focus node with quads but no `rdf:type` triple. -/
def noTypeCont : Cont :=
  { id := .namedNode "n",
    quads := [{ subject := .namedNode "n", predicate := nextPred,
                object := .namedNode "m" }] }

/-- A lens that reports the lineage of the context it runs under, used to
observe which frames a branch sees. -/
def lineageReport : LensFn Cont Value :=
  fun _ ctx st =>
    (st, ctx, .ok (.vlist ((curLineage ctx st).map (fun fr => .vstr fr.name))))

/-- A constant multi lens standing for a compiled path with known results. -/
def constMulti (vs : List Cont) : LensFn Cont (List Cont) :=
  fun _ ctx st => (st, ctx, .ok vs)

/-- A state-transparent extract lens computed by a pure function. -/
def pureValueLens (f : Cont → Value) : LensFn Cont Value :=
  fun c ctx st => (st, ctx, .ok (f c))

/-- Branch-totality: under a cloned (branch) context a lens built from the
state-free primitives preserves the run state and stays on a branch
context. -/
def BTot (l : LensFn α β) : Prop :=
  ∀ c lin st, ∃ lin' r, l c (.branch lin) st = (st, .branch lin', r)

/-- A Literal-focus container used by the C2 counterexample. -/
def contA : Cont := { id := .literal "a", quads := [] }

/-- A second Literal-focus container used by the C2 counterexample. -/
def contB : Cont := { id := .literal "b", quads := [] }

/-- A well-formed `rdf:first`/`rdf:rest` chain: the terms reachable from a
head node where every chain node carries exactly one `rdf:first` and
exactly one `rdf:rest` quad, terminated by `rdf:nil`.  The side conditions
are phrased with the same quad filters the `pred` lens evaluates. -/
inductive WellFormedList (quads : List Quad) : Term → List Term → Prop where
  | nil : WellFormedList quads rdfNil []
  | cons (node e rest : Term) (es : List Term)
      (hnnil : node ≠ rdfNil)
      (hfirst : (quads.filter
          (fun q => q.subject == node && q.predicate == rdfFirst)).map
          (fun q => q.object) = [e])
      (hrest : (quads.filter
          (fun q => q.subject == node && q.predicate == rdfRest)).map
          (fun q => q.object) = [rest])
      (htail : WellFormedList quads rest es) :
      WellFormedList quads node (e :: es)

/-- First chain node of the C5 witness. -/
def bNode1 : Term := .blankNode "b1"

/-- Second chain node of the C5 witness. -/
def bNode2 : Term := .blankNode "b2"

/-- Third chain node of the C5 witness. -/
def bNode3 : Term := .blankNode "b3"

/-- The three-element list `( "1" "2" "3" )` of the C5 witness. -/
def chainQuads : List Quad :=
  [{ subject := bNode1, predicate := rdfFirst, object := .literal "1" },
   { subject := bNode1, predicate := rdfRest, object := bNode2 },
   { subject := bNode2, predicate := rdfFirst, object := .literal "2" },
   { subject := bNode2, predicate := rdfRest, object := bNode3 },
   { subject := bNode3, predicate := rdfFirst, object := .literal "3" },
   { subject := bNode3, predicate := rdfRest, object := rdfNil }]

/-- A malformed chain node carrying two `rdf:first` links (and one
`rdf:rest`), for the C5 counterexample. -/
def dupQuads : List Quad :=
  [{ subject := bNode1, predicate := rdfFirst, object := .literal "1" },
   { subject := bNode1, predicate := rdfFirst, object := .literal "2" },
   { subject := bNode1, predicate := rdfRest, object := rdfNil }]

/-- Association-list lookup on a plain record: `m[k]` of a JS object. -/
def recLookup (m : List (String × Value)) (k : String) : Option Value :=
  (m.find? (fun kv => kv.1 = k)).map Prod.snd

/-- The A-typed focus instance of the subclass-dispatch scenario. -/
def dispatchCont : Cont :=
  { id := .namedNode "inst",
    quads := [{ subject := .namedNode "inst", predicate := rdfType,
                object := .namedNode "A" }] }

/-- A cache holding a shape lens for class `A` (tag 1, producing the record
`ra`) and one for its superclass `B` (tag 2, producing `rb`). -/
def abCache (ra rb : List (String × Value)) : Cache :=
  [("A", (1, pureRecordLens ra)), ("B", (2, pureRecordLens rb))]

/-- `A rdfs:subClassOf B`. -/
def abSub : List (String × String) := [("A", "B")]

/-- The EnvVariable node of the C8 scenario. -/
def envNode : Term := .blankNode "env"

/-- Quads describing an `rdfl:EnvVariable` node with key `k`, optional
`rdfl:envDefault` object `d` and optional `rdfl:datatype` `dt`. -/
def envQuads (k : String) (d : Option Term) (dt : Option Term) : List Quad :=
  [{ subject := envNode, predicate := rdfType, object := rdflEnvVariable },
   { subject := envNode, predicate := rdflEnvKey, object := .literal k }] ++
  (d.map (fun t =>
    ({ subject := envNode, predicate := rdflEnvDefault, object := t } :
      Quad))).toList ++
  (dt.map (fun t =>
    ({ subject := envNode, predicate := rdflDatatype, object := t } :
      Quad))).toList

/-- The containers of one term kind, in input order. -/
def groupConts (ty : TermType) (qs : List Cont) : List Cont :=
  qs.filter (fun c => c.id.termType == ty)

/-- Fill one `unique()` dictionary starting from `m`: upsert each container
under its `id.value`. -/
def dictFoldFrom (m : List (String × Cont)) (qs : List Cont) :
    List (String × Cont) :=
  qs.foldl (fun m c => upsert m c.id.value c) m

/-- Fill one `unique()` dictionary from empty. -/
def dictFold (qs : List Cont) : List (String × Cont) :=
  dictFoldFrom [] qs

/-- Specification of first-insertion key order: append each key the first
time it is seen. -/
def firstKeys (acc : List String) : List Cont → List String
  | [] => acc
  | c :: rest =>
    if c.id.value ∈ acc then firstKeys acc rest
    else firstKeys (acc ++ [c.id.value]) rest

/-- Association-list lookup on a container dictionary. -/
def alookup (m : List (String × Cont)) (k : String) : Option Cont :=
  (m.find? (fun kv => kv.1 = k)).map Prod.snd

/-- First occurrence of the duplicated key in the C7 counterexample. -/
def contDup1 : Cont := { id := .namedNode "dup", quads := [] }

/-- Second (different) occurrence of the duplicated key in the C7
counterexample. -/
def contDup2 : Cont :=
  { id := .namedNode "dup",
    quads := [{ subject := envNode, predicate := rdfType,
                object := envNode }] }

/-- Literal container with the numeric value `1` (C7 counterexample). -/
def contNum1 : Cont := { id := .literal "1", quads := [] }

/-- Literal container with the numeric value `2` (C7 counterexample). -/
def contNum2 : Cont := { id := .literal "2", quads := [] }




theorem pureRecordLens_preserves (fs : List (String × Value)) :
    PreservesCachedEntries (pureRecordLens fs) := by
  intro c ctx st st' ctx' r h tag ty k a hl
  cases h
  exact hl

theorem find?_upsert_self [DecidableEq κ] (m : List (κ × α)) (k : κ) (v : α) :
    (upsert m k v).find? (fun kv => kv.1 = k) = some (k, v) := by
  induction m with
  | nil => simp [upsert]
  | cons h t ih =>
    by_cases hk : h.1 = k
    · simp [upsert, hk, List.find?]
    · simp [upsert, hk, List.find?, ih]

theorem lookupCachedState_set (st : RunState) (tag : Nat) (cs : CachedState) :
    lookupCachedState (setCachedState st tag cs) tag = cs := by
  simp [lookupCachedState, setCachedState, find?_upsert_self]

theorem findEntry_append_self (es : List CachedEntry) (k : String) (tag a : Nat)
    (h : findEntry es k tag = none) :
    findEntry (es ++ [{ key := k, lensTag := tag, addr := a }]) k tag = some a := by
  unfold findEntry at h ⊢
  rw [List.find?_append]
  rw [Option.map_eq_none'] at h
  rw [h]
  simp

theorem lookupCached_heap (st : RunState) (h : List (List (String × Value)))
    (tag : Nat) (ty : TermType) (k : String) :
    lookupCached { st with heap := h } tag ty k = lookupCached st tag ty k := rfl

theorem lookupCached_assignHeap (st : RunState) (a : Nat) (v : Value)
    (tag : Nat) (ty : TermType) (k : String) :
    lookupCached (assignHeap st a v) tag ty k = lookupCached st tag ty k := rfl

theorem lookupCached_reserve (st : RunState) (tag : Nat) (ty : TermType)
    (k : String) (a : Nat) (hb : ty ≠ .literalT)
    (h : lookupCached st tag ty k = none) :
    lookupCached (reserveCached st tag ty k a) tag ty k = some a := by
  cases ty with
  | literalT => exact absurd rfl hb
  | namedNodeT =>
    simp only [lookupCached, bucketEntries] at h
    simp only [reserveCached, lookupCached, lookupCachedState_set, bucketEntries]
    exact findEntry_append_self _ _ _ _ h
  | blankNodeT =>
    simp only [lookupCached, bucketEntries] at h
    simp only [reserveCached, lookupCached, lookupCachedState_set, bucketEntries]
    exact findEntry_append_self _ _ _ _ h

theorem cachedRun_hit (tag : Nat) (L : LensFn Cont Value) (c : Cont)
    (ctx : Ctx) (st : RunState) (a : Nat)
    (h : lookupCached st tag c.id.termType c.id.value = some a) :
    CachedRun tag L c ctx st = (st, ctx, .ok (.vref a)) := by
  unfold CachedRun
  rw [h]

theorem cachedRun_miss (tag : Nat) (L : LensFn Cont Value) (c : Cont)
    (ctx : Ctx) (st st2 : RunState) (ctx2 : Ctx) (v : Value)
    (h : lookupCached st tag c.id.termType c.id.value = none)
    (hL : L c ctx (reserveCached { st with heap := st.heap ++ [[]] } tag
        c.id.termType c.id.value st.heap.length) = (st2, ctx2, .ok v)) :
    CachedRun tag L c ctx st =
      (assignHeap st2 st.heap.length v, ctx2, .ok (.vref st.heap.length)) := by
  unfold CachedRun
  rw [h]
  dsimp only
  rw [hL]

theorem concat_set_length (l : List α) (x y : α) :
    (l ++ [x]).set l.length y = l ++ [y] := by
  induction l with
  | nil => rfl
  | cons h t ih => simp [List.set, ih]

theorem cachedRun_literal (tag : Nat) (L : LensFn Cont Value)
    (fs : List (String × Value)) (c : Cont) (ctx : Ctx) (st : RunState)
    (hlit : c.id.termType = .literalT)
    (hL : ∀ ctx0 st0, L c ctx0 st0 = (st0, ctx0, .ok (.vrecord fs))) :
    CachedRun tag L c ctx st =
      ({ st with
          cachedMap := upsert st.cachedMap tag (lookupCachedState st tag),
          heap := st.heap ++ [objAssign [] fs] }, ctx,
        .ok (.vref st.heap.length)) := by
  have hnone : lookupCached st tag c.id.termType c.id.value = none := by
    unfold lookupCached
    rw [hlit]
    rfl
  rw [cachedRun_miss tag L c ctx st _ ctx _ hnone (hL ctx _)]
  congr 1
  unfold assignHeap reserveCached
  rw [hlit]
  dsimp only
  unfold setCachedState lookupCachedState
  simp [fieldsOfValue, List.get?_concat_length, concat_set_length]

/-- **C1** (amended: the focus id must be a NamedNode or a BlankNode — for a
Literal focus the lookup dictionary is a fresh throwaway object, see the
counterexample and C10).  For every lens wrapped by `Cached` and every run:
(1) while a reservation for the focus is registered — which happens before
the wrapped lens starts populating it — every invocation, re-entrant or
later, under any context and any wrapped-lens body, immediately returns the
identical reserved record object and leaves the run state untouched;
(2) a successful invocation returns a heap reference and, provided the
wrapped lens preserves registered reservations (every lens the library
builds does), re-invoking on the resulting state returns the identity-equal
same reference; (3) consequently the `Point` shape whose required `next`
field extracts through `rdfl:TypedExtract` terminates on the cyclic data
`<p1> a <Point>; <next> <p1>.` and yields the record that holds a reference
to itself: both visits observe the shared record. -/
theorem cached_identity_closes_cycles
    (L : LensFn Cont Value) (tag : Nat) (c : Cont) (ctx : Ctx)
    (st st1 : RunState) (ctx1 : Ctx) (v : Value)
    (hb : c.id.termType ≠ .literalT)
    (hp : PreservesCachedEntries L)
    (hrun : CachedRun tag L c ctx st = (st1, ctx1, .ok v)) :
    (∀ (L2 : LensFn Cont Value) (ctx2 : Ctx) (st' : RunState) (a : Nat),
        lookupCached st' tag c.id.termType c.id.value = some a →
        CachedRun tag L2 c ctx2 st' = (st', ctx2, .ok (.vref a))) ∧
    (∃ a, v = .vref a ∧ ∀ (L2 : LensFn Cont Value) (ctx2 : Ctx),
        CachedRun tag L2 c ctx2 st1 = (st1, ctx2, .ok (.vref a))) ∧
    (teTop 3 { id := pNode, quads := cyclicQuads } .root createContext).2.2 =
        .ok (.vref 0) ∧
    (teTop 3 { id := pNode, quads := cyclicQuads } .root createContext).1.heap =
        [[("next", .vref 0)]] := by
  refine ⟨fun L2 ctx2 st' a h => cachedRun_hit tag L2 c ctx2 st' a h, ?_, rfl, rfl⟩
  cases hlk : lookupCached st tag c.id.termType c.id.value with
  | some a =>
    rw [cachedRun_hit tag L c ctx st a hlk] at hrun
    cases hrun
    exact ⟨a, rfl, fun L2 ctx2 => cachedRun_hit tag L2 c ctx2 st a hlk⟩
  | none =>
    have hres := hrun
    unfold CachedRun at hres
    rw [hlk] at hres
    dsimp only at hres
    cases hLr : L c ctx (reserveCached { st with heap := st.heap ++ [[]] } tag
        c.id.termType c.id.value st.heap.length) with
    | mk st2 rest =>
      cases rest with
      | mk ctx2 r =>
        cases r with
        | error e =>
          rw [hLr] at hres
          simp at hres
        | ok v0 =>
          rw [hLr] at hres
          cases hres
          refine ⟨st.heap.length, rfl, fun L2 ctx3 => ?_⟩
          apply cachedRun_hit
          rw [lookupCached_assignHeap]
          refine hp c ctx _ st2 _ _ hLr tag _ _ _ ?_
          refine lookupCached_reserve _ tag _ _ _ hb ?_
          rw [lookupCached_heap]
          exact hlk

/-- Witness for C1 at a concrete input: a constant record lens under tag 5
on the NamedNode focus `<w>`, whose first invocation from a fresh context
computes to the state `stW` and the reference `vref 0`. -/
theorem cached_identity_closes_cycles_witness :
    (∀ (L2 : LensFn Cont Value) (ctx2 : Ctx) (st' : RunState) (a : Nat),
        lookupCached st' 5 contW.id.termType contW.id.value = some a →
        CachedRun 5 L2 contW ctx2 st' = (st', ctx2, .ok (.vref a))) ∧
    (∃ a, Value.vref 0 = Value.vref a ∧
        ∀ (L2 : LensFn Cont Value) (ctx2 : Ctx),
          CachedRun 5 L2 contW ctx2 stW = (stW, ctx2, .ok (.vref a))) ∧
    (teTop 3 { id := pNode, quads := cyclicQuads } .root createContext).2.2 =
        .ok (.vref 0) ∧
    (teTop 3 { id := pNode, quads := cyclicQuads } .root createContext).1.heap =
        [[("next", .vref 0)]] :=
  cached_identity_closes_cycles (pureRecordLens [("f", .vstr "x")]) 5 contW
    .root createContext stW .root (.vref 0) (by decide)
    (pureRecordLens_preserves _) rfl

/-- C1 counterexample to the unamended claim: on a Literal focus id, two
invocations of the same `Cached`-wrapped lens in the same run return two
distinct result objects (heap references 0 and 1), not the identical one. -/
theorem cached_identity_literal_cex :
    (CachedRun 7 (pureRecordLens [("a", .vstr "b")]) contLit .root
        createContext).2.2 = .ok (.vref 0) ∧
    (CachedRun 7 (pureRecordLens [("a", .vstr "b")]) contLit .root
        (CachedRun 7 (pureRecordLens [("a", .vstr "b")]) contLit .root
          createContext).1).2.2 = .ok (.vref 1) ∧
    Value.vref 1 ≠ Value.vref 0 :=
  ⟨rfl, rfl, by simp⟩

/-- **C10**: `Cached` memoises only NamedNode and BlankNode foci.  For any
other focus kind (here stated for every Literal focus) and any
state-transparent record-producing wrapped lens: each invocation misses the
throwaway dictionary, re-executes the wrapped lens, allocates a fresh
record at the end of the heap and returns a reference to it, so two
invocations return two different record objects, each freshly filled with
the lens output. -/
theorem cached_literal_not_memoised
    (L : LensFn Cont Value) (fs : List (String × Value)) (tag : Nat)
    (c : Cont) (ctx : Ctx) (st : RunState)
    (hlit : c.id.termType = .literalT)
    (hL : ∀ ctx0 st0, L c ctx0 st0 = (st0, ctx0, .ok (.vrecord fs))) :
    ∃ st1 st2 : RunState,
      CachedRun tag L c ctx st = (st1, ctx, .ok (.vref st.heap.length)) ∧
      CachedRun tag L c ctx st1 = (st2, ctx, .ok (.vref st1.heap.length)) ∧
      st1.heap.length = st.heap.length + 1 ∧
      Value.vref st1.heap.length ≠ Value.vref st.heap.length ∧
      st1.heap.get? st.heap.length = some (objAssign [] fs) ∧
      st2.heap.get? st1.heap.length = some (objAssign [] fs) := by
  refine ⟨_, _, cachedRun_literal tag L fs c ctx st hlit hL,
    cachedRun_literal tag L fs c ctx _ hlit hL, ?_, ?_, ?_, ?_⟩
  · simp
  · simp
  · exact List.get?_concat_length _ _
  · exact List.get?_concat_length _ _

/-- **C4**: whenever the quad set holds no `rdf:type` triple for the focus
id, the `TypedExtract` dispatcher raises the No-type `LensError`
`"Expected a type, found none"` (after pushing its two lineage frames)
instead of returning a value. -/
theorem typedExtract_no_type_fails (cache : Cache)
    (subClasses : List (String × String)) (c : Cont) (ctx : Ctx)
    (st : RunState)
    (h : c.quads.find? (fun q => q.subject == c.id && q.predicate == rdfType) =
      none) :
    ∃ ctx2 st2, TypedExtractRun cache subClasses c ctx st =
      (st2, ctx2, .error (.lensError "Expected a type, found none"
        (curLineage ctx2 st2))) := by
  refine ⟨(pushFrame { name := "TypedExtract", opts := [] }
      (pushFrame { name := "Found type", opts := [] } ctx st).1
      (pushFrame { name := "Found type", opts := [] } ctx st).2).1,
    (pushFrame { name := "TypedExtract", opts := [] }
      (pushFrame { name := "Found type", opts := [] } ctx st).1
      (pushFrame { name := "Found type", opts := [] } ctx st).2).2, ?_⟩
  unfold TypedExtractRun
  rw [h]
  rfl

/-- Witness for C4 at a concrete input: a typeless focus node under an
empty cache from a fresh context. -/
theorem typedExtract_no_type_fails_witness :
    ∃ ctx2 st2, TypedExtractRun [] [] noTypeCont .root createContext =
      (st2, ctx2, .error (.lensError "Expected a type, found none"
        (curLineage ctx2 st2))) :=
  typedExtract_no_type_fails [] [] noTypeCont .root createContext rfl

/-- **C6** (amended: only the alternatives after the first are tried on
cloned contexts; the first branch runs on the caller's own context object,
so lineage frames it pushed before failing remain visible — on the root
context they enter the root lineage that every later clone snapshots.  The
memo table is shared between all branches of the run).  When the first
branch of `or` fails, each alternative runs on a clone carrying a snapshot
of the root context's lineage while the run state — including the shared
`stateMap` — is threaded through unchanged, and the caller resumes on its
own (possibly mutated) context. -/
theorem or_first_branch_uncloned (l1 l2 : LensFn α β) (c : α) (ctx ctx1 : Ctx)
    (st st1 : RunState) (e : LensErr)
    (h1 : l1 c ctx st = (st1, ctx1, .error e)) :
    orElse l1 [l2] c ctx st =
      (match l2 c (.branch st1.rootLineage) st1 with
       | (st2, _, .ok v) => (st2, ctx1, .ok v)
       | (st2, _, .error e2) => (st2, ctx1, .error (.collected [e, e2]))) := by
  unfold orElse
  rw [h1]
  unfold orRest cloneCtx
  cases h2 : l2 c (.branch st1.rootLineage) st1 with
  | mk st2 rest =>
    cases rest with
    | mk ctxx r =>
      cases r with
      | ok v => rfl
      | error e2 => rfl

/-- Witness for C6 at a concrete input: a failing first branch and a
constant alternative. -/
theorem or_first_branch_uncloned_witness :
    orElse (failL "boom") [pureRecordLens []] contLit .root createContext =
      (match pureRecordLens [] contLit (.branch createContext.rootLineage)
          createContext with
       | (st2, _, .ok v) => (st2, .root, .ok v)
       | (st2, _, .error e2) =>
         (st2, .root, .error (.collected [.lensError "boom" [], e2]))) :=
  or_first_branch_uncloned (failL "boom") (pureRecordLens []) contLit .root
    .root createContext createContext (.lensError "boom" []) rfl

/-- C6 counterexample to the claim as stated: the first `or` branch pushes
the frame `bad` onto the caller's (root) context and fails; the successful
second branch then runs under a cloned context whose lineage already
contains `bad` — the failed branch's frame is visible, not absent. -/
theorem or_lineage_leak_cex :
    (orElse (named (failL "boom") "bad" []) [lineageReport] contLit .root
        createContext).2.2 = .ok (.vlist [.vstr "bad"]) ∧
    Value.vlist [.vstr "bad"] ≠ .vlist [] :=
  ⟨rfl, by simp⟩

/-- **C9**: a top-level `execute` call with the defaulted context argument
allocates its own fresh run context via `createContext()`; the embedding
threads every piece of mutable run data (state map, heap, lineage) through
that context, so the result is a pure function of the lens and the
container, and two invocations yield structurally equal results.  In this
pure shallow embedding both conjuncts hold definitionally — which is the
content of the claim: nothing outside the per-run context can influence or
be influenced by a run. -/
theorem execute_deterministic_no_sharing (l : LensFn Cont Value) (c : Cont) :
    executeTop l c = executeTop l c ∧
    executeTop l c = l c .root createContext :=
  ⟨rfl, rfl⟩

/-- Witness for C10 at a concrete input: a constant record lens on the
Literal focus `"lit"` starting from a fresh context. -/
theorem cached_literal_not_memoised_witness :
    ∃ st1 st2 : RunState,
      CachedRun 7 (pureRecordLens [("g", .vstr "y")]) contLit .root
          createContext =
        (st1, .root, .ok (.vref createContext.heap.length)) ∧
      CachedRun 7 (pureRecordLens [("g", .vstr "y")]) contLit .root st1 =
        (st2, .root, .ok (.vref st1.heap.length)) ∧
      st1.heap.length = createContext.heap.length + 1 ∧
      Value.vref st1.heap.length ≠ Value.vref createContext.heap.length ∧
      st1.heap.get? createContext.heap.length =
        some (objAssign [] [("g", Value.vstr "y")]) ∧
      st2.heap.get? st1.heap.length =
        some (objAssign [] [("g", Value.vstr "y")]) :=
  cached_literal_not_memoised (pureRecordLens [("g", .vstr "y")])
    [("g", .vstr "y")] 7 contLit .root createContext (by decide)
    (fun _ _ => rfl)

theorem BTot_predRaw (p : Option Term) : BTot (predRaw p) :=
  fun c lin st => ⟨lin, _, rfl⟩

theorem BTot_emptyL : BTot (emptyL : LensFn α α) :=
  fun c lin st => ⟨lin, _, rfl⟩

theorem BTot_named (l : LensFn α β) (nm : String) (opts : List String)
    (h : BTot l) : BTot (named l nm opts) := by
  intro c lin st
  obtain ⟨lin', r, hr⟩ := h c (lin ++ [{ name := nm, opts := opts }]) st
  exact ⟨lin', r, by unfold named pushFrame; exact hr⟩

theorem BTot_mapSt (l : LensFn α β)
    (f : β → List Lineage → RunState → Except LensErr γ) (h : BTot l) :
    BTot (mapSt l f) := by
  intro c lin st
  obtain ⟨lin', r, hr⟩ := h c lin st
  cases r with
  | ok b => exact ⟨lin', _, by unfold mapSt; rw [hr]⟩
  | error e => exact ⟨lin', _, by unfold mapSt; rw [hr]⟩

theorem BTot_mapP (l : LensFn α β) (f : β → γ) (h : BTot l) :
    BTot (mapP l f) :=
  BTot_mapSt l _ h

theorem BTot_thenL (l : LensFn α β) (n : LensFn β γ) (hl : BTot l)
    (hn : BTot n) : BTot (thenL l n) := by
  intro c lin st
  obtain ⟨lin1, r, hr⟩ := hl c lin st
  cases r with
  | ok b =>
    obtain ⟨lin2, r2, hr2⟩ := hn b lin1 st
    exact ⟨lin2, r2, by unfold thenL; rw [hr]; dsimp only; exact hr2⟩
  | error e => exact ⟨lin1, _, by unfold thenL; rw [hr]⟩

theorem BTot_and2 (l : LensFn α β) (r : LensFn α γ) (hl : BTot l)
    (hr : BTot r) : BTot (and2 l r) := by
  intro c lin st
  obtain ⟨lin1, r1, h1⟩ := hl c lin st
  cases r1 with
  | ok b =>
    obtain ⟨lin2, r2, h2⟩ := hr c lin1 st
    cases r2 with
    | ok g => exact ⟨lin2, _, by unfold and2; rw [h1]; dsimp only; rw [h2]⟩
    | error e => exact ⟨lin2, _, by unfold and2; rw [h1]; dsimp only; rw [h2]⟩
  | error e => exact ⟨lin1, _, by unfold and2; rw [h1]⟩

theorem BTot_expectOne (l : LensFn α (List β)) (h : BTot l) :
    BTot (expectOne l) :=
  BTot_mapSt l _ h

theorem BTot_oneD (l : LensFn α (List β)) (h : BTot l) : BTot (oneD l) :=
  BTot_mapP l _ h

theorem BTot_pred (p : Option Term) : BTot (pred p) :=
  BTot_named _ _ _ (BTot_predRaw p)

theorem BTot_RDFListElement : BTot RDFListElement :=
  BTot_and2 _ _ (BTot_expectOne _ (BTot_pred _)) (BTot_expectOne _ (BTot_pred _))

theorem BTot_RdfList (fuel : Nat) : BTot (RdfList fuel) := by
  induction fuel with
  | zero => exact fun c lin st => ⟨lin, _, rfl⟩
  | succ n ih =>
    intro c lin st
    by_cases hnil : c.id = rdfNil
    · exact ⟨lin, .ok [], by unfold RdfList; rw [if_pos hnil]⟩
    · obtain ⟨lin1, r1, h1⟩ := BTot_RDFListElement c lin st
      cases r1 with
      | error e =>
        exact ⟨lin1, .error e, by unfold RdfList; rw [if_neg hnil, h1]⟩
      | ok fr =>
        obtain ⟨lin2, r2, h2⟩ := ih fr.2 lin1 st
        cases r2 with
        | ok els =>
          exact ⟨lin2, .ok (fr.1.id :: els),
            by unfold RdfList; rw [if_neg hnil, h1]; dsimp only; rw [h2]⟩
        | error e =>
          exact ⟨lin2, .error e,
            by unfold RdfList; rw [if_neg hnil, h1]; dsimp only; rw [h2]⟩

theorem rdfList_length (fuel : Nat) :
    ∀ (c : Cont) (ctx ctx' : Ctx) (st st' : RunState) (ts : List Term),
      RdfList fuel c ctx st = (st', ctx', .ok ts) → ts.length ≤ fuel := by
  induction fuel with
  | zero =>
    intro c ctx ctx' st st' ts h
    exact absurd h (by unfold RdfList; simp)
  | succ n ih =>
    intro c ctx ctx' st st' ts h
    unfold RdfList at h
    by_cases hnil : c.id = rdfNil
    · rw [if_pos hnil] at h
      cases h
      simp
    · rw [if_neg hnil] at h
      cases hE : RDFListElement c ctx st with
      | mk st1 rest =>
        cases rest with
        | mk ctx1 r1 =>
          rw [hE] at h
          cases r1 with
          | error e => simp at h
          | ok fr =>
            dsimp only at h
            cases hR : RdfList n fr.2 ctx1 st1 with
            | mk st2 rest2 =>
              cases rest2 with
              | mk ctx2 r2 =>
                rw [hR] at h
                cases r2 with
                | error e => simp at h
                | ok els =>
                  dsimp only at h
                  cases h
                  have := ih fr.2 ctx1 _ st1 _ els hR
                  simpa using Nat.succ_le_succ this

theorem listOrSingleton_branch (fuel : Nat) (x : Cont) (lin : List Lineage)
    (st : RunState) :
    ∃ lin' ls, listOrSingleton fuel x (.branch lin) st =
      (st, .branch lin', .ok ls) ∧ ls.length ≤ fuel + 1 := by
  have hT : BTot (thenListExtract fuel) :=
    BTot_mapP _ _ (BTot_and2 _ _ (BTot_RdfList fuel) BTot_emptyL)
  obtain ⟨lin1, r1, h1⟩ := hT x lin st
  cases r1 with
  | ok ls =>
    -- the ok of thenListExtract is the mapped RdfList result
    refine ⟨lin1, ls, ?_, ?_⟩
    · unfold listOrSingleton orElse
      rw [h1]
    · -- length of ls: comes from RdfList; recover via the mapP structure
      unfold thenListExtract mapP mapSt at h1
      cases hA : and2 (RdfList fuel) (emptyL : LensFn Cont Cont) x (.branch lin) st with
      | mk stA restA =>
        cases restA with
        | mk ctxA rA =>
          rw [hA] at h1
          cases rA with
          | error e => simp at h1
          | ok p =>
            dsimp only at h1
            -- h1 : (stA, ctxA, .ok (p.1.map _)) = (st, .branch lin1, .ok ls)
            unfold and2 at hA
            cases hL : RdfList fuel x (.branch lin) st with
            | mk stL restL =>
              cases restL with
              | mk ctxL rL =>
                rw [hL] at hA
                cases rL with
                | error e => simp at hA
                | ok ts =>
                  dsimp only at hA
                  cases hE : (emptyL : LensFn Cont Cont) x ctxL stL with
                  | mk stE restE =>
                    cases restE with
                    | mk ctxE rE =>
                      rw [hE] at hA
                      cases rE with
                      | error e => simp at hA
                      | ok xx =>
                        cases hA
                        cases h1
                        have hlen := rdfList_length fuel x (.branch lin) ctxL st stL ts hL
                        simpa using Nat.le_succ_of_le hlen
  | error e =>
    refine ⟨lin1, [x], ?_, by simp⟩
    unfold listOrSingleton orElse
    rw [h1]
    unfold orRest noListExtract mapP mapSt emptyL cloneCtx
    rfl

theorem thenFlatGo_listOrSingleton (fuel : Nat) :
    ∀ (vs : List Cont) (ctx : Ctx) (st : RunState),
      ∃ ls : List Cont,
        thenFlatGo (listOrSingleton fuel) vs ctx st = (st, ctx, .ok ls) ∧
        ls.length ≤ vs.length * (fuel + 1) := by
  intro vs
  induction vs with
  | nil => exact fun ctx st => ⟨[], rfl, by simp⟩
  | cons x xs ih =>
    intro ctx st
    obtain ⟨lin', ls1, h1, hlen1⟩ := listOrSingleton_branch fuel x st.rootLineage st
    obtain ⟨ls2, h2, hlen2⟩ := ih ctx st
    refine ⟨ls1 ++ ls2, ?_, ?_⟩
    · unfold thenFlatGo cloneCtx
      rw [h1]
      dsimp only
      rw [h2]
    · calc (ls1 ++ ls2).length = ls1.length + ls2.length := by simp
        _ ≤ (fuel + 1) + xs.length * (fuel + 1) := Nat.add_le_add hlen1 hlen2
        _ = (x :: xs).length * (fuel + 1) := by ring_nf; simp [Nat.succ_mul]; ring

theorem thenAllGo_pure (f : Cont → Value) :
    ∀ (ls : List Cont) (ctx : Ctx) (st : RunState),
      thenAllGo (pureValueLens f) ls ctx st = (st, ctx, .ok (ls.map f)) := by
  intro ls
  induction ls with
  | nil => intro ctx st; rfl
  | cons x xs ih =>
    intro ctx st
    unfold thenAllGo cloneCtx
    rw [show pureValueLens f x (.branch st.rootLineage) st =
      (st, .branch st.rootLineage, .ok (f x)) from rfl]
    dsimp only
    rw [ih ctx st]
    rfl

theorem fieldToLens_optional_unbounded (fuel : Nat) (nameS : String)
    (f : Cont → Value) (vs : List Cont) (c : Cont) (ctx : Ctx) (st : RunState)
    (hlen : vs.length * (fuel + 1) ≤ maxSafeInteger) :
    ∃ out : List Value,
      fieldToLens fuel
          { name := nameS, path := constMulti vs, minCount := some 0,
            maxCount := none, extract := pureValueLens f }
        c ctx st = (st, ctx, .ok (.vlist out)) := by
  obtain ⟨ls, hgo, hlenls⟩ :=
    thenFlatGo_listOrSingleton fuel vs (.branch st.rootLineage) st
  have hxs : ((ls.map f).filter (fun v => !v.isUndef)).length ≤ maxSafeInteger := by
    calc ((ls.map f).filter (fun v => !v.isUndef)).length
        ≤ (ls.map f).length := List.length_filter_le _ _
      _ = ls.length := List.length_map _ _
      _ ≤ vs.length * (fuel + 1) := hlenls
      _ ≤ maxSafeInteger := hlen
  refine ⟨((ls.map f).filter (fun v => !v.isUndef)).filter
    (fun v => !v.isUndef), ?_⟩
  unfold fieldToLens
  dsimp only
  rw [if_neg (show ¬ (jsOrNat none maxSafeInteger < 2) from by
    norm_num [jsOrNat, maxSafeInteger])]
  unfold mapSt thenAll thenFlat
  rw [show constMulti vs c (cloneCtx st) st = (st, cloneCtx st, .ok vs) from rfl]
  dsimp only
  rw [show (cloneCtx st : Ctx) = Ctx.branch st.rootLineage from rfl]
  rw [hgo]
  dsimp only
  rw [thenAllGo_pure f ls ctx st]
  dsimp only
  simp only [show jsOrNat (some 0) 0 = 0 from rfl,
    show jsOrNat none maxSafeInteger = maxSafeInteger from rfl]
  rw [if_neg (Nat.not_lt_zero _)]
  rw [if_neg (Nat.not_lt.mpr hxs)]
  dsimp only
  rw [if_neg (show ¬ (maxSafeInteger < 2) from by norm_num [maxSafeInteger])]

/-- **C2** (amended: with `minCount=1, maxCount=1` the compiled field lens
raises `"Field is not defined and required"` when the path yields zero
values, but does **not** raise when it yields two — `one(undefined)`
silently takes the first path result and extracts it; with `minCount=0` and
no `maxCount` bound execution succeeds for any number of path results,
including zero, returning the list of defined extracted values). -/
theorem fieldToLens_cardinality :
    (∀ (fuel : Nat) (nameS : String) (extract : LensFn Cont Value) (c : Cont)
        (ctx : Ctx) (st : RunState),
      fieldToLens fuel
          { name := nameS, path := constMulti [], minCount := some 1,
            maxCount := some 1, extract := extract }
        c ctx st =
        (st, ctx, .error (.lensError "Field is not defined and required"
          (curLineage ctx st)))) ∧
    (∀ (fuel : Nat) (nameS : String) (f : Cont → Value) (c0 : Cont)
        (rest : List Cont) (c : Cont) (ctx : Ctx) (st : RunState),
      fieldToLens fuel
          { name := nameS, path := constMulti (c0 :: rest), minCount := some 1,
            maxCount := some 1, extract := pureValueLens f }
        c ctx st = (st, ctx, .ok (f c0))) ∧
    (∀ (fuel : Nat) (nameS : String) (f : Cont → Value) (vs : List Cont)
        (c : Cont) (ctx : Ctx) (st : RunState),
      vs.length * (fuel + 1) ≤ maxSafeInteger →
      ∃ out : List Value,
        fieldToLens fuel
            { name := nameS, path := constMulti vs, minCount := some 0,
              maxCount := none, extract := pureValueLens f }
          c ctx st = (st, ctx, .ok (.vlist out))) :=
  ⟨fun _ _ _ _ _ _ => rfl, fun _ _ _ _ _ _ _ _ => rfl,
   fun fuel nameS f vs c ctx st h =>
     fieldToLens_optional_unbounded fuel nameS f vs c ctx st h⟩

/-- Witness for C2 at concrete inputs: an empty path with a required single
field errors; a two-result path with a required single field extracts the
first; a three-result path with an optional unbounded field succeeds. -/
theorem fieldToLens_cardinality_witness :
    (fieldToLens 1
        { name := "x", path := constMulti [], minCount := some 1,
          maxCount := some 1,
          extract := pureValueLens (fun c0 => .vstr c0.id.value) }
      contA .root createContext =
      (createContext, .root,
        .error (.lensError "Field is not defined and required"
          (curLineage .root createContext)))) ∧
    (fieldToLens 1
        { name := "x", path := constMulti [contA, contB], minCount := some 1,
          maxCount := some 1,
          extract := pureValueLens (fun c0 => .vstr c0.id.value) }
      contA .root createContext =
      (createContext, .root, .ok (.vstr contA.id.value))) ∧
    (∃ out : List Value,
      fieldToLens 1
          { name := "x", path := constMulti [contA, contB, contA],
            minCount := some 0, maxCount := none,
            extract := pureValueLens (fun c0 => .vstr c0.id.value) }
        contA .root createContext =
        (createContext, .root, .ok (.vlist out))) :=
  ⟨fieldToLens_cardinality.1 1 "x" (pureValueLens (fun c0 => .vstr c0.id.value))
      contA .root createContext,
   fieldToLens_cardinality.2.1 1 "x" (fun c0 => .vstr c0.id.value) contA
      [contB] contA .root createContext,
   fieldToLens_cardinality.2.2 1 "x" (fun c0 => .vstr c0.id.value)
      [contA, contB, contA] contA .root createContext
      (by norm_num [maxSafeInteger])⟩

/-- C2 counterexample to the claim as stated: a field with
`minCount=1, maxCount=1` whose path yields **two** values does not raise —
it succeeds with the extraction of the first value. -/
theorem fieldToLens_two_matches_no_error_cex :
    fieldToLens 1
        { name := "x", path := constMulti [contA, contB], minCount := some 1,
          maxCount := some 1,
          extract := pureValueLens (fun c0 => .vstr c0.id.value) }
      contA .root createContext = (createContext, .root, .ok (.vstr "a")) ∧
    ∀ e : LensErr,
      (Except.ok (Value.vstr "a") : Except LensErr Value) ≠ .error e :=
  ⟨rfl, fun e => by simp⟩


theorem map_cont_singleton (l : List Quad) (quads : List Quad) (e : Term)
    (h : l.map (fun q => q.object) = [e]) :
    l.map (fun q => ({ id := q.object, quads := quads } : Cont)) =
      [{ id := e, quads := quads }] := by
  cases l with
  | nil => simp at h
  | cons q t =>
    simp only [List.map_cons, List.cons.injEq] at h ⊢
    obtain ⟨h1, h2⟩ := h
    have ht : t = [] := by
      cases t with
      | nil => rfl
      | cons a b => simp at h2
    subst ht
    exact ⟨by rw [h1], by simp⟩

theorem pushFrame_cachedMap (fr : Lineage) (ctx : Ctx) (st : RunState) :
    (pushFrame fr ctx st).2.cachedMap = st.cachedMap := by
  cases ctx <;> rfl

theorem pushFrame_heap (fr : Lineage) (ctx : Ctx) (st : RunState) :
    (pushFrame fr ctx st).2.heap = st.heap := by
  cases ctx <;> rfl

theorem predObjects_eval (t : Term) (node : Term) (quads : List Quad)
    (ctx : Ctx) (st : RunState) :
    pred (some t) { id := node, quads := quads } ctx st =
      ((pushFrame { name := "pred", opts := [termToString t] } ctx st).2,
       (pushFrame { name := "pred", opts := [termToString t] } ctx st).1,
       .ok ((quads.filter
          (fun q => q.subject == node && q.predicate == t)).map
          (fun q => ({ id := q.object, quads := quads } : Cont)))) := rfl

theorem RDFListElement_eval (quads : List Quad) (node e rest : Term)
    (ctx : Ctx) (st : RunState)
    (hfirst : (quads.filter
        (fun q => q.subject == node && q.predicate == rdfFirst)).map
        (fun q => q.object) = [e])
    (hrest : (quads.filter
        (fun q => q.subject == node && q.predicate == rdfRest)).map
        (fun q => q.object) = [rest]) :
    ∃ st2 ctx2, RDFListElement { id := node, quads := quads } ctx st =
      (st2, ctx2, .ok ({ id := e, quads := quads },
        { id := rest, quads := quads })) ∧
      st2.cachedMap = st.cachedMap ∧ st2.heap = st.heap := by
  refine ⟨(pushFrame { name := "pred", opts := [termToString rdfRest] }
      (pushFrame { name := "pred", opts := [termToString rdfFirst] } ctx st).1
      (pushFrame { name := "pred", opts := [termToString rdfFirst] } ctx st).2).2,
    (pushFrame { name := "pred", opts := [termToString rdfRest] }
      (pushFrame { name := "pred", opts := [termToString rdfFirst] } ctx st).1
      (pushFrame { name := "pred", opts := [termToString rdfFirst] } ctx st).2).1,
    ?_, ?_, ?_⟩
  · unfold RDFListElement and2 expectOne mapSt
    rw [predObjects_eval rdfFirst node quads ctx st]
    dsimp only
    rw [map_cont_singleton _ quads e hfirst]
    dsimp only
    rw [predObjects_eval rdfRest node quads _ _]
    dsimp only
    rw [map_cont_singleton _ quads rest hrest]
  · rw [pushFrame_cachedMap, pushFrame_cachedMap]
  · rw [pushFrame_heap, pushFrame_heap]

theorem rdfList_wellformed (quads : List Quad) (head : Term) (es : List Term)
    (h : WellFormedList quads head es) :
    ∀ fuel, es.length < fuel → ∀ (ctx : Ctx) (st : RunState),
      ∃ st' ctx', RdfList fuel { id := head, quads := quads } ctx st =
        (st', ctx', .ok es) ∧ st'.cachedMap = st.cachedMap ∧
        st'.heap = st.heap := by
  induction h with
  | nil =>
    intro fuel hf ctx st
    match fuel, hf with
    | f + 1, _ =>
      exact ⟨st, ctx, by unfold RdfList; rw [if_pos rfl], rfl, rfl⟩
  | cons node e rest es hnnil hfirst hrest htail ih =>
    intro fuel hf ctx st
    match fuel, hf with
    | f + 1, hf =>
      obtain ⟨st2, ctx2, hE, hc2, hh2⟩ :=
        RDFListElement_eval quads node e rest ctx st hfirst hrest
      obtain ⟨st3, ctx3, hR, hc3, hh3⟩ := ih f (by simp at hf; omega) ctx2 st2
      refine ⟨st3, ctx3, ?_, by rw [hc3, hc2], by rw [hh3, hh2]⟩
      unfold RdfList
      rw [if_neg hnnil, hE]
      dsimp only
      rw [hR]

theorem rdfList_missing_first (quads : List Quad) (node : Term)
    (ctx : Ctx) (st : RunState) (fuel : Nat)
    (hnnil : node ≠ rdfNil)
    (hfirst : quads.filter
        (fun q => q.subject == node && q.predicate == rdfFirst) = []) :
    ∃ st' ctx' lin, RdfList (fuel + 1) { id := node, quads := quads } ctx st =
      (st', ctx', .error (.lensError "Expected one, found none" lin)) := by
  refine ⟨(pushFrame { name := "pred", opts := [termToString rdfFirst] }
      ctx st).2,
    (pushFrame { name := "pred", opts := [termToString rdfFirst] } ctx st).1,
    curLineage
      (pushFrame { name := "pred", opts := [termToString rdfFirst] } ctx st).1
      (pushFrame { name := "pred", opts := [termToString rdfFirst] } ctx st).2,
    ?_⟩
  unfold RdfList RDFListElement and2 expectOne mapSt
  rw [if_neg hnnil]
  rw [predObjects_eval rdfFirst node quads ctx st]
  dsimp only
  rw [hfirst]
  rfl

theorem rdfList_missing_rest (quads : List Quad) (node e : Term)
    (ctx : Ctx) (st : RunState) (fuel : Nat)
    (hnnil : node ≠ rdfNil)
    (hfirst : (quads.filter
        (fun q => q.subject == node && q.predicate == rdfFirst)).map
        (fun q => q.object) = [e])
    (hrest : quads.filter
        (fun q => q.subject == node && q.predicate == rdfRest) = []) :
    ∃ st' ctx' lin, RdfList (fuel + 1) { id := node, quads := quads } ctx st =
      (st', ctx', .error (.lensError "Expected one, found none" lin)) := by
  refine ⟨(pushFrame { name := "pred", opts := [termToString rdfRest] }
      (pushFrame { name := "pred", opts := [termToString rdfFirst] } ctx st).1
      (pushFrame { name := "pred", opts := [termToString rdfFirst] } ctx st).2).2,
    (pushFrame { name := "pred", opts := [termToString rdfRest] }
      (pushFrame { name := "pred", opts := [termToString rdfFirst] } ctx st).1
      (pushFrame { name := "pred", opts := [termToString rdfFirst] } ctx st).2).1,
    curLineage
      (pushFrame { name := "pred", opts := [termToString rdfRest] }
        (pushFrame { name := "pred", opts := [termToString rdfFirst] } ctx st).1
        (pushFrame { name := "pred", opts := [termToString rdfFirst] } ctx st).2).1
      (pushFrame { name := "pred", opts := [termToString rdfRest] }
        (pushFrame { name := "pred", opts := [termToString rdfFirst] } ctx st).1
        (pushFrame { name := "pred", opts := [termToString rdfFirst] } ctx st).2).2,
    ?_⟩
  unfold RdfList RDFListElement and2 expectOne mapSt
  rw [if_neg hnnil]
  rw [predObjects_eval rdfFirst node quads ctx st]
  dsimp only
  rw [map_cont_singleton _ quads e hfirst]
  dsimp only
  rw [predObjects_eval rdfRest node quads _ _]
  dsimp only
  rw [hrest]
  rfl


/-- **C5** (amended: a container whose id is `rdf:nil` decodes to the empty
list; a well-formed chain of length n decodes to exactly its n member terms
in head-to-tail order; a chain node with **no** `rdf:first` or no
`rdf:rest` fails with `"Expected one, found none"`; but duplicated links do
**not** fail — `expectOne` silently takes the first matching quad, see the
counterexample). -/
theorem rdfList_decode_spec :
    (∀ (quads : List Quad) (head : Term) (es : List Term),
      WellFormedList quads head es → ∀ fuel, es.length < fuel →
      ∀ (ctx : Ctx) (st : RunState),
        ∃ st' ctx', RdfList fuel { id := head, quads := quads } ctx st =
          (st', ctx', .ok es) ∧ st'.cachedMap = st.cachedMap ∧
          st'.heap = st.heap) ∧
    (∀ (quads : List Quad) (fuel : Nat) (ctx : Ctx) (st : RunState),
      RdfList (fuel + 1) { id := rdfNil, quads := quads } ctx st =
        (st, ctx, .ok [])) ∧
    (∀ (quads : List Quad) (node : Term) (ctx : Ctx) (st : RunState)
        (fuel : Nat), node ≠ rdfNil →
      quads.filter (fun q => q.subject == node && q.predicate == rdfFirst) =
        [] →
      ∃ st' ctx' lin,
        RdfList (fuel + 1) { id := node, quads := quads } ctx st =
          (st', ctx', .error (.lensError "Expected one, found none" lin))) ∧
    (∀ (quads : List Quad) (node e : Term) (ctx : Ctx) (st : RunState)
        (fuel : Nat), node ≠ rdfNil →
      (quads.filter
          (fun q => q.subject == node && q.predicate == rdfFirst)).map
          (fun q => q.object) = [e] →
      quads.filter (fun q => q.subject == node && q.predicate == rdfRest) =
        [] →
      ∃ st' ctx' lin,
        RdfList (fuel + 1) { id := node, quads := quads } ctx st =
          (st', ctx', .error (.lensError "Expected one, found none" lin))) :=
  ⟨rdfList_wellformed,
   fun quads fuel ctx st => by unfold RdfList; rw [if_pos rfl],
   fun quads node ctx st fuel h1 h2 =>
     rdfList_missing_first quads node ctx st fuel h1 h2,
   fun quads node e ctx st fuel h1 h2 h3 =>
     rdfList_missing_rest quads node e ctx st fuel h1 h2 h3⟩

/-- Witness for C5 at concrete inputs: the three-element chain
`( "1" "2" "3" )` decodes in order with fuel 4; `rdf:nil` decodes to `[]`;
a node with no `rdf:first` fails; a node with an `rdf:first` but no
`rdf:rest` fails. -/
theorem rdfList_decode_spec_witness :
    (∃ st' ctx', RdfList 4 { id := bNode1, quads := chainQuads } .root
        createContext =
        (st', ctx', .ok [Term.literal "1", Term.literal "2",
          Term.literal "3"]) ∧
      st'.cachedMap = createContext.cachedMap ∧
      st'.heap = createContext.heap) ∧
    (RdfList 1 { id := rdfNil, quads := [] } .root createContext =
      (createContext, .root, .ok [])) ∧
    (∃ st' ctx' lin,
      RdfList 1 { id := bNode2, quads := [] } .root createContext =
        (st', ctx', .error (.lensError "Expected one, found none" lin))) ∧
    (∃ st' ctx' lin,
      RdfList 1
          { id := bNode1,
            quads := [{ subject := bNode1, predicate := rdfFirst,
                        object := Term.literal "1" }] }
          .root createContext =
        (st', ctx', .error (.lensError "Expected one, found none" lin))) :=
  ⟨rdfList_decode_spec.1 chainQuads bNode1
      [Term.literal "1", Term.literal "2", Term.literal "3"]
      (by refine .cons _ _ bNode2 _ (by decide) rfl rfl ?_
          refine .cons _ _ bNode3 _ (by decide) rfl rfl ?_
          refine .cons _ _ rdfNil _ (by decide) rfl rfl ?_
          exact .nil)
      4 (by norm_num) .root createContext,
   rdfList_decode_spec.2.1 [] 0 .root createContext,
   rdfList_decode_spec.2.2.1 [] bNode2 .root createContext 0 (by decide) rfl,
   rdfList_decode_spec.2.2.2
      [{ subject := bNode1, predicate := rdfFirst,
         object := Term.literal "1" }]
      bNode1 (Term.literal "1") .root createContext 0 (by decide) rfl rfl⟩

/-- C5 counterexample to the claim as stated: a chain node with **two**
`rdf:first` quads (and one `rdf:rest`) does not fail — decoding succeeds
and uses the first matching quad. -/
theorem rdfList_duplicate_first_cex :
    (RdfList 2 { id := bNode1, quads := dupQuads } .root createContext).2.2 =
      .ok [Term.literal "1"] ∧
    ∀ e : LensErr,
      (Except.ok [Term.literal "1"] : Except LensErr (List Term)) ≠
        .error e :=
  ⟨rfl, fun e => by simp⟩

theorem upsert_append_of_not_mem (m : List (String × Value)) (k : String)
    (v : Value) (h : k ∉ m.map Prod.fst) : upsert m k v = m ++ [(k, v)] := by
  induction m with
  | nil => rfl
  | cons kv t ih =>
    simp only [List.map_cons, List.mem_cons, not_or] at h
    unfold upsert
    rw [if_neg (fun he => h.1 he.symm)]
    rw [ih h.2]
    rfl

theorem objAssign_append_of_disjoint (fs : List (String × Value)) :
    ∀ base : List (String × Value), (fs.map Prod.fst).Nodup →
    (∀ k ∈ fs.map Prod.fst, k ∉ base.map Prod.fst) →
    objAssign base fs = base ++ fs := by
  induction fs with
  | nil => intro base _ _; simp [objAssign]
  | cons kv t ih =>
    intro base hnd hdisj
    simp only [List.map_cons, List.nodup_cons] at hnd
    unfold objAssign
    simp only [List.foldl_cons]
    rw [show (upsert base kv.1 kv.2) = base ++ [(kv.1, kv.2)] from
      upsert_append_of_not_mem base kv.1 kv.2
        (hdisj kv.1 (by simp))]
    have := ih (base ++ [(kv.1, kv.2)]) hnd.2 ?_
    · unfold objAssign at this
      rw [this]
      simp
    · intro k hk
      have hkmem : k ∈ ((kv :: t).map Prod.fst) := by
        simp only [List.map_cons, List.mem_cons]
        exact Or.inr hk
      have h1 : k ∉ base.map Prod.fst := hdisj k hkmem
      have h2 : k ≠ kv.1 := fun he => hnd.1 (he ▸ hk)
      simp only [List.map_append, List.mem_append, List.map_cons,
        List.map_nil, List.mem_singleton, not_or]
      exact ⟨h1, h2⟩

theorem objAssign_nil_of_nodup (fs : List (String × Value))
    (h : (fs.map Prod.fst).Nodup) : objAssign [] fs = fs := by
  have := objAssign_append_of_disjoint fs [] h (by simp)
  simpa using this

theorem recLookup_upsert_self (m : List (String × Value)) (k : String)
    (v : Value) : recLookup (upsert m k v) k = some v := by
  induction m with
  | nil => simp [upsert, recLookup, List.find?]
  | cons kv t ih =>
    by_cases hk : kv.1 = k
    · simp [upsert, hk, recLookup, List.find?]
    · unfold upsert
      rw [if_neg hk]
      unfold recLookup at ih ⊢
      rw [List.find?_cons_of_neg _ (by simpa using hk)]
      exact ih

theorem recLookup_upsert_other (m : List (String × Value)) (k k' : String)
    (v : Value) (h : k' ≠ k) :
    recLookup (upsert m k v) k' = recLookup m k' := by
  induction m with
  | nil =>
    unfold upsert recLookup
    rw [List.find?_cons_of_neg _
      (by simpa using fun he : k = k' => h he.symm)]
  | cons kv t ih =>
    unfold upsert
    by_cases hk : kv.1 = k
    · rw [if_pos hk]
      have hne : ¬ (kv.1 = k') := fun he => h (he ▸ hk)
      unfold recLookup
      rw [List.find?_cons_of_neg _ (by simpa using hne),
        List.find?_cons_of_neg _ (by simpa using hne)]
    · rw [if_neg hk]
      by_cases hk' : kv.1 = k'
      · unfold recLookup
        rw [List.find?_cons_of_pos _ (by simpa using hk'),
          List.find?_cons_of_pos _ (by simpa using hk')]
      · unfold recLookup at ih ⊢
        rw [List.find?_cons_of_neg _ (by simpa using hk'),
          List.find?_cons_of_neg _ (by simpa using hk')]
        exact ih

theorem recLookup_objAssign_not_mem (fs : List (String × Value)) :
    ∀ (base : List (String × Value)) (k : String), recLookup fs k = none →
    recLookup (objAssign base fs) k = recLookup base k := by
  induction fs with
  | nil => intro base k _; rfl
  | cons kv t ih =>
    intro base k h
    unfold recLookup at h
    by_cases hk : kv.1 = k
    · rw [List.find?_cons_of_pos _ (by simpa using hk)] at h
      simp at h
    · rw [List.find?_cons_of_neg _ (by simpa using hk)] at h
      unfold objAssign
      simp only [List.foldl_cons]
      have := ih (upsert base kv.1 kv.2) k h
      unfold objAssign at this
      rw [this]
      exact recLookup_upsert_other base kv.1 k kv.2 (fun he => hk he.symm)

theorem recLookup_objAssign_mem (fs : List (String × Value)) :
    ∀ (base : List (String × Value)) (k : String) (v : Value),
    (fs.map Prod.fst).Nodup → recLookup fs k = some v →
    recLookup (objAssign base fs) k = some v := by
  induction fs with
  | nil => intro base k v _ h; simp [recLookup, List.find?] at h
  | cons kv t ih =>
    intro base k v hnd h
    simp only [List.map_cons, List.nodup_cons] at hnd
    unfold recLookup at h
    unfold objAssign
    simp only [List.foldl_cons]
    by_cases hk : kv.1 = k
    · rw [List.find?_cons_of_pos _ (by simpa using hk)] at h
      simp only [Option.map_some'] at h
      have hnone : recLookup t k = none := by
        unfold recLookup
        rw [Option.map_eq_none']
        rw [List.find?_eq_none]
        intro x hx hpx
        simp only [decide_eq_true_eq] at hpx
        exact hnd.1 (by rw [hk, ← hpx]; exact List.mem_map_of_mem Prod.fst hx)
      have hrest := recLookup_objAssign_not_mem t (upsert base kv.1 kv.2) k hnone
      unfold objAssign at hrest
      rw [hrest, hk, recLookup_upsert_self]
      exact h
    · rw [List.find?_cons_of_neg _ (by simpa using hk)] at h
      exact ih (upsert base kv.1 kv.2) k v hnd.2 h

theorem typedExtract_ab_run (ra rb : List (String × Value)) :
    ∃ st' ctx',
      TypedExtractRun (abCache ra rb) abSub dispatchCont .root createContext =
        (st', ctx', .ok (.vrecord
          (objAssign (objAssign [] (objAssign [] ra)) (objAssign [] rb)))) :=
  ⟨_, _, rfl⟩


/-- **C3** (amended: on a key conflict the **parent** shape's value wins,
not the child's — the subclass walk pushes the child's lens first and the
merge `Object.assign({}, child, parent)` lets the later, parent, record
overwrite).  For a focus typed `A` with `A rdfs:subClassOf B` and shape
lenses for both classes producing records `ra` and `rb` with duplicate-free
field names: the dispatcher returns the `Object.assign` union of the child
record and the parent record; every field of the parent keeps the parent's
value, and fields only the child has keep the child's value. -/
theorem typedExtract_subclass_merge
    (ra rb : List (String × Value))
    (hra : (ra.map Prod.fst).Nodup) (hrb : (rb.map Prod.fst).Nodup) :
    (∃ st' ctx',
      TypedExtractRun (abCache ra rb) abSub dispatchCont .root createContext =
        (st', ctx', .ok (.vrecord (objAssign ra rb)))) ∧
    (∀ (k : String) (v : Value), recLookup rb k = some v →
      recLookup (objAssign ra rb) k = some v) ∧
    (∀ k : String, recLookup rb k = none →
      recLookup (objAssign ra rb) k = recLookup ra k) := by
  refine ⟨?_, fun k v h => recLookup_objAssign_mem rb ra k v hrb h,
    fun k h => recLookup_objAssign_not_mem rb ra k h⟩
  obtain ⟨st', ctx', hrun⟩ := typedExtract_ab_run ra rb
  refine ⟨st', ctx', ?_⟩
  rw [hrun]
  simp only [objAssign_nil_of_nodup ra hra, objAssign_nil_of_nodup rb hrb]

/-- Witness for C3 at concrete records: child `A` contributes
`{f: "child", x: 1}`, parent `B` contributes `{f: "parent", z: 3}`. -/
theorem typedExtract_subclass_merge_witness :
    (∃ st' ctx',
      TypedExtractRun
          (abCache [("f", .vstr "child"), ("x", .vint 1)]
            [("f", .vstr "parent"), ("z", .vint 3)])
          abSub dispatchCont .root createContext =
        (st', ctx', .ok (.vrecord
          (objAssign [("f", .vstr "child"), ("x", .vint 1)]
            [("f", .vstr "parent"), ("z", .vint 3)])))) ∧
    (∀ (k : String) (v : Value),
      recLookup [("f", .vstr "parent"), ("z", .vint 3)] k = some v →
      recLookup (objAssign [("f", .vstr "child"), ("x", .vint 1)]
        [("f", .vstr "parent"), ("z", .vint 3)]) k = some v) ∧
    (∀ k : String,
      recLookup [("f", .vstr "parent"), ("z", .vint 3)] k = none →
      recLookup (objAssign [("f", .vstr "child"), ("x", .vint 1)]
          [("f", .vstr "parent"), ("z", .vint 3)]) k =
        recLookup [("f", .vstr "child"), ("x", .vint 1)] k) :=
  typedExtract_subclass_merge [("f", .vstr "child"), ("x", .vint 1)]
    [("f", .vstr "parent"), ("z", .vint 3)] (by simp) (by simp)

/-- C3 counterexample to the claim as stated: with child record
`{f: "child"}` and parent record `{f: "parent"}` the dispatcher's merged
record holds the parent's value on the conflicting key, not the child's. -/
theorem typedExtract_child_override_cex :
    (TypedExtractRun
        (abCache [("f", .vstr "child")] [("f", .vstr "parent")]) abSub
        dispatchCont .root createContext).2.2 =
      .ok (.vrecord [("f", .vstr "parent")]) ∧
    Value.vstr "parent" ≠ Value.vstr "child" :=
  ⟨rfl, by simp⟩

theorem envPipeline_eval (k : String) (d dt : Option Term)
    (lin : List Lineage) (st : RunState) :
    ∃ lin',
      and2 envCheckType (and2 envName (and2 envDefaultL envDatatypeL))
        { id := envNode, quads := envQuads k d dt } (.branch lin) st =
      (st, .branch lin', .ok ((), k, d.map Term.value, dt)) := by
  cases d with
  | none =>
    cases dt with
    | none => exact ⟨_, rfl⟩
    | some u => exact ⟨_, rfl⟩
  | some t =>
    cases dt with
    | none => exact ⟨_, rfl⟩
    | some u => exact ⟨_, rfl⟩

/-- **C8** (amended: the resolution uses JS `||` truthiness, not presence —
an environment value that is set but **empty** falls through to the
default, and an empty resolved value also fails).  For every EnvVariable
node with key `k`: when `env[k] || default` yields a non-empty string `v`,
`envLens` succeeds with `v` coerced at the requested datatype (the
`dataType` argument, else the node-attached `rdfl:datatype`, else the
`literal` pseudo-datatype); when it yields nothing or the empty string, it
fails with `"ENV and default are not set"`. -/
theorem envLens_spec (env : List (String × String)) (dataType : Option Term)
    (k : String) (d dt : Option Term) (lin : List Lineage) (st : RunState) :
    (∀ v : String,
      jsOrStr (jsLookupStr env k) (d.map Term.value) = some v → v ≠ "" →
      ∃ lin', envLens env dataType { id := envNode, quads := envQuads k d dt }
          (.branch lin) st =
        (st, .branch lin', .ok (dataTypeToExtract
          ((dataType.orElse (fun _ => dt)).getD xsdLiteral) (.literal v)))) ∧
    (jsOrStr (jsLookupStr env k) (d.map Term.value) = none ∨
      jsOrStr (jsLookupStr env k) (d.map Term.value) = some "" →
      ∃ lin' lin2,
        envLens env dataType { id := envNode, quads := envQuads k d dt }
          (.branch lin) st =
        (st, .branch lin', .error
          (.lensError "ENV and default are not set" lin2))) := by
  obtain ⟨lin', hpipe⟩ := envPipeline_eval k d dt lin st
  constructor
  · intro v hres hv
    refine ⟨lin', ?_⟩
    unfold envLens mapSt
    rw [hpipe]
    dsimp only
    rw [hres]
    dsimp only
    rw [if_neg hv]
  · intro hres
    refine ⟨lin', { name := "Env Key", opts := [k] } :: lin', ?_⟩
    unfold envLens mapSt
    rw [hpipe]
    dsimp only
    cases hres with
    | inl h => rw [h]; rfl
    | inr h =>
      rw [h]
      dsimp only
      rw [if_pos rfl]
      rfl

/-- Witness for C8 at concrete inputs: a set, non-empty variable resolves
and coerces; an unset variable with no default fails. -/
theorem envLens_spec_witness :
    (∃ lin', envLens [("K", "val")] none
        { id := envNode, quads := envQuads "K" none none }
        (.branch []) createContext =
      (createContext, .branch lin',
        .ok (dataTypeToExtract xsdLiteral (.literal "val")))) ∧
    (∃ lin' lin2, envLens [] none
        { id := envNode, quads := envQuads "M" none none }
        (.branch []) createContext =
      (createContext, .branch lin',
        .error (.lensError "ENV and default are not set" lin2))) :=
  ⟨(envLens_spec [("K", "val")] none "K" none none [] createContext).1 "val"
      rfl (by decide),
   (envLens_spec [] none "M" none none [] createContext).2 (Or.inl rfl)⟩

/-- C8 counterexample to the claim as stated: the environment variable `K`
is present but empty, yet `envLens` resolves to the default `"d"`, not to
the present (empty) environment value. -/
theorem envLens_empty_env_cex :
    (envLens [("K", "")] none
        { id := envNode, quads := envQuads "K" (some (.literal "d")) none }
        .root createContext).2.2 = .ok (.vterm (.literal "d")) ∧
    Value.vterm (.literal "d") ≠ .vterm (.literal "") :=
  ⟨rfl, by simp⟩

theorem foldl_uniqueStep (qs : List Cont) :
    ∀ d : UniqueDicts,
      qs.foldl uniqueStep d =
        { literals := dictFoldFrom d.literals (groupConts .literalT qs),
          namedNodes := dictFoldFrom d.namedNodes (groupConts .namedNodeT qs),
          blankNodes := dictFoldFrom d.blankNodes (groupConts .blankNodeT qs) } := by
  induction qs with
  | nil => intro d; rfl
  | cons c rest ih =>
    intro d
    simp only [List.foldl_cons]
    rw [ih (uniqueStep d c)]
    cases hty : c.id.termType with
    | literalT =>
      unfold uniqueStep groupConts dictFoldFrom
      rw [hty]
      simp only [List.filter, hty]
      rfl
    | namedNodeT =>
      unfold uniqueStep groupConts dictFoldFrom
      rw [hty]
      simp only [List.filter, hty]
      rfl
    | blankNodeT =>
      unfold uniqueStep groupConts dictFoldFrom
      rw [hty]
      simp only [List.filter, hty]
      rfl

theorem keys_upsert (m : List (String × Cont)) (k : String) (v : Cont) :
    (upsert m k v).map Prod.fst =
      if k ∈ m.map Prod.fst then m.map Prod.fst
      else m.map Prod.fst ++ [k] := by
  induction m with
  | nil => simp [upsert]
  | cons kv t ih =>
    by_cases hk : kv.1 = k
    · unfold upsert
      rw [if_pos hk]
      simp [hk]
    · unfold upsert
      rw [if_neg hk]
      simp only [List.map_cons, ih]
      by_cases hmem : k ∈ t.map Prod.fst
      · rw [if_pos hmem, if_pos (by simp [hmem])]
      · have hnot : ¬ k ∈ kv.1 :: List.map Prod.fst t := by
          simp only [List.mem_cons, not_or]
          exact ⟨fun he => hk he.symm, hmem⟩
        rw [if_neg hmem, if_neg hnot]
        rfl

theorem keys_dictFoldFrom (qs : List Cont) :
    ∀ m : List (String × Cont),
      (dictFoldFrom m qs).map Prod.fst = firstKeys (m.map Prod.fst) qs := by
  induction qs with
  | nil => intro m; rfl
  | cons c rest ih =>
    intro m
    unfold dictFoldFrom firstKeys
    simp only [List.foldl_cons]
    have := ih (upsert m c.id.value c)
    unfold dictFoldFrom at this
    rw [this, keys_upsert]
    by_cases hmem : c.id.value ∈ m.map Prod.fst
    · rw [if_pos hmem, if_pos hmem]
    · rw [if_neg hmem, if_neg hmem]

theorem nodup_firstKeys (qs : List Cont) :
    ∀ acc : List String, acc.Nodup → (firstKeys acc qs).Nodup := by
  induction qs with
  | nil => intro acc h; exact h
  | cons c rest ih =>
    intro acc h
    unfold firstKeys
    by_cases hmem : c.id.value ∈ acc
    · rw [if_pos hmem]; exact ih acc h
    · rw [if_neg hmem]
      exact ih _ (by simp [List.nodup_append, h, hmem])

theorem alookup_upsert_self (m : List (String × Cont)) (k : String)
    (v : Cont) : alookup (upsert m k v) k = some v := by
  induction m with
  | nil => simp [upsert, alookup, List.find?]
  | cons kv t ih =>
    by_cases hk : kv.1 = k
    · simp [upsert, hk, alookup, List.find?]
    · unfold upsert
      rw [if_neg hk]
      unfold alookup at ih ⊢
      rw [List.find?_cons_of_neg _ (by simpa using hk)]
      exact ih

theorem alookup_upsert_other (m : List (String × Cont)) (k k' : String)
    (v : Cont) (h : k' ≠ k) :
    alookup (upsert m k v) k' = alookup m k' := by
  induction m with
  | nil =>
    unfold upsert alookup
    rw [List.find?_cons_of_neg _
      (by simpa using fun he : k = k' => h he.symm)]
  | cons kv t ih =>
    unfold upsert
    by_cases hk : kv.1 = k
    · rw [if_pos hk]
      have hne : ¬ (kv.1 = k') := fun he => h (he ▸ hk)
      unfold alookup
      rw [List.find?_cons_of_neg _ (by simpa using hne),
        List.find?_cons_of_neg _ (by simpa using hne)]
    · rw [if_neg hk]
      by_cases hk' : kv.1 = k'
      · unfold alookup
        rw [List.find?_cons_of_pos _ (by simpa using hk'),
          List.find?_cons_of_pos _ (by simpa using hk')]
      · unfold alookup at ih ⊢
        rw [List.find?_cons_of_neg _ (by simpa using hk'),
          List.find?_cons_of_neg _ (by simpa using hk')]
        exact ih

theorem alookup_dictFoldFrom (qs : List Cont) :
    ∀ (m : List (String × Cont)) (k : String),
      alookup (dictFoldFrom m qs) k =
        match qs.reverse.find? (fun c => c.id.value = k) with
        | some c => some c
        | none => alookup m k := by
  induction qs with
  | nil => intro m k; rfl
  | cons c rest ih =>
    intro m k
    unfold dictFoldFrom
    simp only [List.foldl_cons, List.reverse_cons]
    have := ih (upsert m c.id.value c) k
    unfold dictFoldFrom at this
    rw [this, List.find?_append]
    cases hr : rest.reverse.find? (fun c => c.id.value = k) with
    | some c' => rfl
    | none =>
      dsimp only [Option.or]
      by_cases hk : c.id.value = k
      · rw [List.find?_cons_of_pos _ (by simpa using hk)]
        rw [← hk, alookup_upsert_self]
      · rw [List.find?_cons_of_neg _ (by simpa using hk)]
        simp only [List.find?_nil]
        exact alookup_upsert_other m c.id.value k c (fun he => hk he.symm)

theorem mem_insertIdx (kv x : String × Cont) (l : List (String × Cont)) :
    x ∈ insertIdx kv l ↔ x = kv ∨ x ∈ l := by
  induction l with
  | nil => simp [insertIdx]
  | cons y ys ih =>
    unfold insertIdx
    by_cases h : keyIdx kv.1 ≤ keyIdx y.1
    · rw [if_pos h]
      simp only [List.mem_cons]
    · rw [if_neg h]
      simp only [List.mem_cons, ih]
      tauto

theorem pairwise_insertIdx (kv : String × Cont) (l : List (String × Cont))
    (h : l.Pairwise (fun a b => keyIdx a.1 ≤ keyIdx b.1)) :
    (insertIdx kv l).Pairwise (fun a b => keyIdx a.1 ≤ keyIdx b.1) := by
  induction l with
  | nil => simp [insertIdx]
  | cons y ys ih =>
    rw [List.pairwise_cons] at h
    unfold insertIdx
    by_cases hle : keyIdx kv.1 ≤ keyIdx y.1
    · rw [if_pos hle]
      refine List.Pairwise.cons ?_ (List.Pairwise.cons h.1 h.2)
      intro z hz
      rcases List.mem_cons.mp hz with rfl | hz
      · exact hle
      · exact le_trans hle (h.1 z hz)
    · rw [if_neg hle]
      refine List.Pairwise.cons ?_ (ih h.2)
      intro z hz
      rcases (mem_insertIdx kv z ys).mp hz with rfl | hz
      · exact le_of_not_le hle
      · exact h.1 z hz

theorem sortByIdx_pairwise (l : List (String × Cont)) :
    (sortByIdx l).Pairwise (fun a b => keyIdx a.1 ≤ keyIdx b.1) := by
  induction l with
  | nil => simp [sortByIdx]
  | cons x xs ih => exact pairwise_insertIdx x (sortByIdx xs) ih

theorem insertIdx_perm (kv : String × Cont) (l : List (String × Cont)) :
    (insertIdx kv l).Perm (kv :: l) := by
  induction l with
  | nil => simp [insertIdx]
  | cons y ys ih =>
    unfold insertIdx
    by_cases hle : keyIdx kv.1 ≤ keyIdx y.1
    · rw [if_pos hle]
    · rw [if_neg hle]
      exact (ih.cons y).trans (List.Perm.swap kv y ys)

theorem sortByIdx_perm (l : List (String × Cont)) :
    (sortByIdx l).Perm l := by
  induction l with
  | nil => simp [sortByIdx]
  | cons x xs ih => exact (insertIdx_perm x (sortByIdx xs)).trans (ih.cons x)

theorem map_fst_filter_nonIdx (l : List (String × Cont)) :
    (l.filter (fun kv => !isArrayIndex kv.1)).map Prod.fst =
      (l.map Prod.fst).filter (fun k => !isArrayIndex k) := by
  induction l with
  | nil => rfl
  | cons kv t ih =>
    cases hp : isArrayIndex kv.1 <;>
      simp [List.filter_cons, hp, ih]

/-- **C7** (amended twice against the original: the emitted container for a
duplicated `(termType, value)` pair is the **last** occurrence, kept at the
position of the first insertion; and within each group the array-index-like
keys — canonical numerals below `2^32 - 1`, e.g. integer literal values —
are emitted first in ascending numeric order, with only the remaining keys
following in first-insertion order).  `unique()` emits exactly the three
groups Literals, then NamedNodes, then BlankNodes; within each group the
keys are pairwise distinct (at most one container per `(termType, value)`
pair) and the dictionary holds them in first-insertion order, from which
`Object.values` emits the sorted array-index segment followed by the
remaining keys in first-insertion order; and the container stored under
each key is the last input container bearing it. -/
theorem unique_spec (qs : List Cont) :
    (uniqueFn qs =
      objectValues (dictFold (groupConts .literalT qs)) ++
      objectValues (dictFold (groupConts .namedNodeT qs)) ++
      objectValues (dictFold (groupConts .blankNodeT qs))) ∧
    (∀ ty : TermType,
      ((dictFold (groupConts ty qs)).map Prod.fst =
        firstKeys [] (groupConts ty qs)) ∧
      ((dictFold (groupConts ty qs)).map Prod.fst).Nodup ∧
      (sortByIdx ((dictFold (groupConts ty qs)).filter
          (fun kv => isArrayIndex kv.1))).Pairwise
        (fun a b => keyIdx a.1 ≤ keyIdx b.1) ∧
      (sortByIdx ((dictFold (groupConts ty qs)).filter
          (fun kv => isArrayIndex kv.1))).Perm
        ((dictFold (groupConts ty qs)).filter
          (fun kv => isArrayIndex kv.1)) ∧
      (((dictFold (groupConts ty qs)).filter
          (fun kv => !isArrayIndex kv.1)).map Prod.fst =
        (firstKeys [] (groupConts ty qs)).filter
          (fun k => !isArrayIndex k))) ∧
    (∀ (ty : TermType) (k : String),
      alookup (dictFold (groupConts ty qs)) k =
        (groupConts ty qs).reverse.find? (fun c => c.id.value = k)) := by
  refine ⟨?_, fun ty => ⟨keys_dictFoldFrom _ [], ?_, sortByIdx_pairwise _,
    sortByIdx_perm _, ?_⟩, fun ty k => ?_⟩
  · unfold uniqueFn dictFold dictFoldFrom
    rw [foldl_uniqueStep qs
      { literals := [], namedNodes := [], blankNodes := [] }]
    rfl
  · rw [show (dictFold (groupConts ty qs)).map Prod.fst =
        firstKeys [] (groupConts ty qs) from keys_dictFoldFrom _ []]
    exact nodup_firstKeys _ [] List.nodup_nil
  · rw [map_fst_filter_nonIdx,
      show (dictFold (groupConts ty qs)).map Prod.fst =
        firstKeys [] (groupConts ty qs) from keys_dictFoldFrom _ []]
  · unfold dictFold
    rw [alookup_dictFoldFrom]
    cases (groupConts ty qs).reverse.find? (fun c => c.id.value = k) with
    | some c => rfl
    | none => rfl

/-- C7 counterexamples to the claim as stated: (i) two containers share the
NamedNode value `dup` and `unique()` emits the **second** one, not the
first occurrence; (ii) two Literal containers with values `2` then `1` are
emitted as `1, 2` — ascending numeric key order, not first-insertion
order. -/
theorem unique_order_cex :
    (uniqueFn [contDup1, contDup2] = [contDup2] ∧ contDup2 ≠ contDup1) ∧
    (uniqueFn [contNum2, contNum1] = [contNum1, contNum2] ∧
      ([contNum1, contNum2] : List Cont) ≠ [contNum2, contNum1]) :=
  ⟨⟨rfl, by decide⟩, ⟨rfl, by decide⟩⟩

end RdfLens
